import Mathlib

/-!
Shallow embedding of the document-ingestion pipeline of
`src/lib/bookParser.ts` (TXT / PDF / EPUB extractors, language detector,
cover selection, image path resolution, dispatch), together with proofs
settling the frozen claims about it.

Conventions of the embedding:
* JavaScript strings are modelled by Lean `String`; `string.length` (UTF-16
  code units) is modelled by `jsLength`, which counts 2 for astral-plane
  characters and 1 otherwise, so it agrees with JavaScript on all inputs
  (a `substring` boundary can in principle split a surrogate pair in
  JavaScript; such a lone surrogate is not representable as a `Char`, and
  `jsSubstring0` drops the half character instead).
* JavaScript `undefined` object fields are modelled by `Option` fields
  set to `none`.
* `Date.now()` is threaded as an explicit `now : Nat` parameter.
* The floating comparison `chineseChars.length / totalChars > 0.3` is
  modelled by the exact rational comparison `10 * chinese > 3 * total`.
  The two agree on every string constructible in JavaScript: they could
  only differ for ratios within one double ulp of 3/10, which requires a
  denominator (non-whitespace character count) of about 10^16, far beyond
  the engine's maximal string length.
* `throw new Error(...)` is modelled by `Except ParseError`; the
  catch-and-rethrow wrappers preserve the error kind, which the model
  keeps as the `ParseError` constructor.
* DOM documents produced by `DOMParser.parseFromString` are modelled by
  the node tree `XNode`; the extractor code under verification starts
  from that parsed tree.  HTML-entity decoding done through the DOM in
  `cleanMetadata` is the identity on entity-free text, which is all the
  model handles.
-/

/-- Split a character list at every occurrence of `sep` (JavaScript
`string.split(sep)` for a one-character separator). -/
def splitOnChar (sep : Char) : List Char → List (List Char)
  | [] => [[]]
  | c :: cs =>
    let r := splitOnChar sep cs
    if c = sep then [] :: r
    else
      match r with
      | h :: t => (c :: h) :: t
      | [] => [[c]]

/-- Lower-case a string character by character (the needles compared
against are ASCII, where this agrees with `toLowerCase`). -/
def strToLower (s : String) : String := String.mk (s.toList.map Char.toLower)

/-- JavaScript `s.startsWith(pre)`. -/
def strStartsWith (s pre : String) : Bool := pre.toList.isPrefixOf s.toList

/-- JavaScript `s.endsWith(suf)`. -/
def strEndsWith (s suf : String) : Bool := suf.toList.reverse.isPrefixOf s.toList.reverse

/-- Join strings with a separator (JavaScript `array.join(sep)`). -/
def joinWith (sep : String) : List String → String
  | [] => ""
  | [x] => x
  | x :: xs => x ++ sep ++ joinWith sep xs

/-- Code points treated as whitespace by the JavaScript `\s` class and
`String.prototype.trim`. -/
def isJsWs (c : Char) : Bool :=
  c.toNat = 0x9 || c.toNat = 0xa || c.toNat = 0xb || c.toNat = 0xc ||
  c.toNat = 0xd || c.toNat = 0x20 || c.toNat = 0xa0 || c.toNat = 0x1680 ||
  (0x2000 ≤ c.toNat && c.toNat ≤ 0x200a) ||
  c.toNat = 0x2028 || c.toNat = 0x2029 || c.toNat = 0x202f ||
  c.toNat = 0x205f || c.toNat = 0x3000 || c.toNat = 0xfeff

/-- JavaScript `String.prototype.trim`. -/
def jsTrim (s : String) : String :=
  String.mk (((s.toList.dropWhile isJsWs).reverse.dropWhile isJsWs).reverse)

/-- UTF-16 code units contributed by one code point. -/
def jsUnits (c : Char) : Nat := if c.toNat ≥ 0x10000 then 2 else 1

/-- JavaScript `string.length` (UTF-16 code units). -/
def jsLength (s : String) : Nat := (s.toList.map jsUnits).sum

/-- Take code points covering at most `n` UTF-16 units (see header note). -/
def jsTakeUnits : List Char → Nat → List Char
  | [], _ => []
  | c :: cs, n => if jsUnits c ≤ n then c :: jsTakeUnits cs (n - jsUnits c) else []

/-- JavaScript `string.substring(0, n)`. -/
def jsSubstring0 (s : String) (n : Nat) : String :=
  String.mk (jsTakeUnits s.toList n)

/-- Characters that `encodeURIComponent` passes through unescaped. -/
def isUriUnreserved (c : Char) : Bool :=
  c.isAlpha || c.isDigit ||
  c = '-' || c = '_' || c = '.' || c = '!' || c = '~' || c = '*' ||
  c = '(' || c = ')' || c.toNat = 39

/-- Upper-case hexadecimal digit. -/
def hexDigit (n : Nat) : Char :=
  if n < 10 then Char.ofNat (48 + n) else Char.ofNat (55 + n)

/-- UTF-8 bytes of one code point. -/
def utf8Bytes (c : Char) : List Nat :=
  let v := c.toNat
  if v < 0x80 then [v]
  else if v < 0x800 then [0xc0 + v / 64, 0x80 + v % 64]
  else if v < 0x10000 then [0xe0 + v / 4096, 0x80 + v / 64 % 64, 0x80 + v % 64]
  else [0xf0 + v / 262144, 0x80 + v / 4096 % 64, 0x80 + v / 64 % 64, 0x80 + v % 64]

/-- Percent-encode the UTF-8 bytes of one character. -/
def percentEncodeChar (c : Char) : String :=
  (utf8Bytes c).foldl
    (fun acc b => acc ++ String.mk ['%', hexDigit (b / 16), hexDigit (b % 16)]) ""

/-- JavaScript `encodeURIComponent`. -/
def encodeURIComponent (s : String) : String :=
  s.toList.foldl
    (fun acc c => acc ++ (if isUriUnreserved c then String.singleton c else percentEncodeChar c)) ""

/-- Substring containment over character lists. -/
def listHasSub (needle : List Char) : List Char → Bool
  | [] => needle.isEmpty
  | c :: cs => needle.isPrefixOf (c :: cs) || listHasSub needle cs

/-- JavaScript `hay.includes(needle)`. -/
def strIncludes (hay needle : String) : Bool := listHasSub needle.toList hay.toList

/-- Last character of a string is one of the given characters (models a
`/[...]$/` regex test). -/
def lastCharIs (s : String) (cs : List Char) : Bool :=
  match s.toList.getLast? with
  | some c => cs.contains c
  | none => false

/-- JavaScript `file.name.replace(/\.[^\/.]+$/, '')`: strip a final
dot-extension that is non-empty and free of slashes and further dots. -/
def stripExt (name : String) : String :=
  let revCs := name.toList.reverse
  let ext := revCs.takeWhile (fun c => c ≠ '.' && c ≠ '/')
  match revCs.dropWhile (fun c => c ≠ '.' && c ≠ '/') with
  | '.' :: rs => if ext.isEmpty then name else String.mk rs.reverse
  | _ => name

/-- Placeholder cover URL built for TXT/PDF books and as EPUB fallback. -/
def placeholderCover (bookTitle : String) : String :=
  "https://via.placeholder.com/400x600/f59e0b/ffffff?text=" ++
    encodeURIComponent (jsSubstring0 bookTitle 30)

/-! ## Canonical data model (`src/types/book.ts` as used by the parser) -/

/-- One paragraph of the canonical model.  `Option` fields model object
fields the extractors leave `undefined`. -/
structure Paragraph where
  id : String
  text : String
  isHeading : Option Bool := none
  headingLevel : Option Nat := none
  isImage : Option Bool := none
  imageUrl : Option String := none
  imageAlt : Option String := none
deriving Repr, DecidableEq

/-- One chapter of the canonical model. -/
structure Chapter where
  id : String
  title : String
  paragraphs : List Paragraph
deriving Repr, DecidableEq

/-- The canonical book entity returned to the caller. -/
structure Book where
  id : String
  title : String
  author : String
  cover : String
  rating : Nat
  pages : Nat
  language : String
  audioLength : String
  genre : String
  synopsis : String
  isFree : Bool
  chapters : List Chapter
  currentChapter : Nat
  currentParagraph : Nat
deriving Repr, DecidableEq

/-- Kinds of ingestion failure thrown by the parsers (`throw new Error`
sites); the catch-and-rethrow wrapper in `parseEpubFile` prefixes the
message but preserves the kind. -/
inductive ParseError where
  | invalidContainer : String → ParseError
  | noReadableContent : ParseError
  | corruptPdf : ParseError
  | unsupportedFormat : String → ParseError
deriving Repr, DecidableEq

/-! ## Language detector (`detectLanguage`) -/

/-- Characters matched by the source regex `/[一-龥]/`. -/
def isChineseChar (c : Char) : Bool :=
  0x4e00 ≤ c.toNat && c.toNat ≤ 0x9fa5

/-- Number of characters of `text` matched by `/[一-龥]/g`. -/
def chineseCount (text : String) : Nat :=
  (text.toList.filter isChineseChar).length

/-- UTF-16 length of `text.replace(/\s/g, '')`. -/
def nonWsCount (text : String) : Nat :=
  ((text.toList.filter (fun c => !isJsWs c)).map jsUnits).sum

/-- `detectLanguage`: Chinese iff some `[一-龥]` character exists
and their proportion among non-whitespace characters exceeds 0.3 (exact
rational comparison, see header note). -/
def detectLanguage (text : String) : String :=
  if chineseCount text > 0 && 10 * chineseCount text > 3 * nonWsCount text
  then "Chinese" else "English"

/-! ## Structural classifier shared by TXT and PDF -/

/-- The test `/^(CHAPTER|Chapter|第.*章)/i.test(line)`: a case-insensitive
`chapter` at the start, or `第` followed (with no intervening newline,
since `.` does not match newlines) by `章`. -/
def isChapterMarkerLine (s : String) : Bool :=
  strStartsWith (strToLower s) "chapter" ||
  (strStartsWith s "第" && (((s.toList.drop 1).takeWhile (fun c => c ≠ '\n')).contains '章'))

/-- TXT/PDF heading heuristic: UTF-16 length strictly between 10 and 100
and no terminal sentence punctuation. -/
def isHeadingLine (s : String) : Bool :=
  jsLength s < 100 && !(lastCharIs s ['.', '!', '?']) && jsLength s > 10

/-! ## DOM node trees (output of `DOMParser.parseFromString`) -/

/-- A parsed XML/HTML node: an element with tag, attributes and child
nodes, or a text node. -/
inductive XNode where
  | elem (tag : String) (attrs : List (String × String)) (children : List XNode)
  | text (s : String)
deriving Repr

/-- Tag of a node (empty for text nodes). -/
def XNode.tag : XNode → String
  | .elem t _ _ => t
  | .text _ => ""

/-- Child node list (empty for text nodes). -/
def XNode.childNodes : XNode → List XNode
  | .elem _ _ cs => cs
  | .text _ => []

/-- Whether a node is an element. -/
def XNode.isElem : XNode → Bool
  | .elem _ _ _ => true
  | .text _ => false

/-- `getAttribute`: `none` models a `null` return. -/
def getAttr (attrs : List (String × String)) (name : String) : Option String :=
  (attrs.find? (fun a => a.1 = name)).map (fun a => a.2)

mutual
/-- `element.textContent`: concatenated text descendants. -/
def textContent : XNode → String
  | .text s => s
  | .elem _ _ cs => textContentList cs
/-- Concatenated text descendants of a node list. -/
def textContentList : List XNode → String
  | [] => ""
  | c :: cs => textContent c ++ textContentList cs
end

mutual
/-- All element nodes in document (pre-)order, the node itself included. -/
def elemsOf : XNode → List XNode
  | .text _ => []
  | .elem t a cs => .elem t a cs :: elemsOfList cs
/-- All element nodes under a node list, in document order. -/
def elemsOfList : List XNode → List XNode
  | [] => []
  | c :: cs => elemsOf c ++ elemsOfList cs
end

/-- Split into maximal runs of non-whitespace characters. -/
def wsTokensAux : List Char → List Char → List String
  | [], acc => if acc.isEmpty then [] else [String.mk acc.reverse]
  | c :: cs, acc =>
    if isJsWs c then
      if acc.isEmpty then wsTokensAux cs []
      else String.mk acc.reverse :: wsTokensAux cs []
    else wsTokensAux cs (c :: acc)

/-- Whether an element's `class` attribute contains the given token
(the `.chapter-title` selector). -/
def hasClass (n : XNode) (cls : String) : Bool :=
  match n with
  | .elem _ attrs _ =>
    match getAttr attrs "class" with
    | some v => (wsTokensAux v.toList []).contains cls
    | none => false
  | .text _ => false

/-- First element matched by a predicate over the whole subtree
(`querySelector`). -/
def querySelectorP (root : XNode) (p : XNode → Bool) : Option XNode :=
  (elemsOf root).find? p

mutual
/-- Removal inside one node (the node itself is tested by the caller):
recurse into an element's children, reporting whether a removal
happened. -/
def removeFirstIn : (XNode → Bool) → XNode → XNode × Bool
  | _, .text s => (.text s, false)
  | p, .elem t a cs =>
    let r := removeFirstList p cs
    (.elem t a r.1, r.2)
/-- Remove the first element (in document order) satisfying `p` from a
node list, reporting whether a removal happened. -/
def removeFirstList : (XNode → Bool) → List XNode → List XNode × Bool
  | _, [] => ([], false)
  | p, c :: cs =>
    if p c then (cs, true)
    else
      let rc := removeFirstIn p c
      if rc.2 then (rc.1 :: cs, true)
      else
        let r := removeFirstList p cs
        (rc.1 :: r.1, r.2)
end

/-- `el.remove()` applied to the first element satisfying `p` (a match at
the root empties the document). -/
def removeFirstNode (p : XNode → Bool) (n : XNode) : XNode :=
  if p n then .text ""
  else
    match n with
    | .text s => .text s
    | .elem t a cs => .elem t a (removeFirstList p cs).1

/-! ## EPUB package abstraction -/

/-- One `<manifest><item>` of the package document. -/
structure ManifestItem where
  id : String
  href : String
  properties : Option String := none
  mediaType : Option String := none
deriving Repr, DecidableEq

/-- The parsed package document (OPF): metadata text contents, manifest
items in document order, spine `idref`s in reading order (`none` models a
missing attribute), and the `<meta name="cover">` content attribute. -/
structure OpfData where
  title : Option String := none
  creator : Option String := none
  description : Option String := none
  manifest : List ManifestItem := []
  spine : List (Option String) := []
  metaCover : Option String := none
deriving Repr, DecidableEq

/-- An EPUB archive as the extractor sees it after unzipping and XML
parsing: the ordered archive entry names, whether
`META-INF/container.xml` is present, the `rootfile` full-path parsed from
it, the parsed package document found at that path, and the parsed
content documents keyed by archive path. -/
structure EpubInput where
  zipNames : List String
  containerPresent : Bool := true
  rootfilePath : Option String := none
  opf : Option OpfData := none
  docs : List (String × XNode) := []
deriving Repr

/-! ## Abstracted input file -/

/-- A PDF page after text extraction: the space-joined text runs, whether
rasterising the page succeeds, and the rendered data URL when it does. -/
structure PdfPage where
  text : String
  renderOk : Bool := true
  imageData : String := ""
deriving Repr, DecidableEq

/-- An uploaded file as the parsers see it: the filename, the text-decoded
content (`file.text()`), the PDF page list when `pdfjs.getDocument`
succeeds (`none` models a corrupt/encrypted document whose opening
throws), and the parsed EPUB container when `JSZip`/`DOMParser` can open
it. -/
structure MFile where
  name : String
  text : String := ""
  pdf : Option (List PdfPage) := none
  epub : Option EpubInput := none
deriving Repr

/-! ## TXT extractor (`parseTxtFile`) -/

/-- Running state of the TXT line loop. -/
structure TxtState where
  chapters : List Chapter
  current : Chapter
  pid : Nat
  chapterCount : Nat
deriving Repr, DecidableEq

/-- Initial state: synthesized first chapter `ch1` / `Chapter 1`. -/
def txtInit : TxtState :=
  { chapters := [], current := { id := "ch1", title := "Chapter 1", paragraphs := [] },
    pid := 0, chapterCount := 1 }

/-- One iteration of the `parseTxtFile` line loop. -/
def txtStep (st : TxtState) (rawLine : String) : TxtState :=
  let line := jsTrim rawLine
  if isChapterMarkerLine line && st.current.paragraphs.length > 0 then
    { chapters := st.chapters ++ [st.current],
      current := { id := "ch" ++ toString (st.chapterCount + 1), title := line, paragraphs := [] },
      pid := st.pid,
      chapterCount := st.chapterCount + 1 }
  else if jsLength line > 0 then
    let hd := isHeadingLine line
    { st with
      current := { st.current with paragraphs := st.current.paragraphs ++
        [{ id := "p" ++ toString st.pid, text := line,
           isHeading := some hd,
           headingLevel := if hd then some 3 else none }] },
      pid := st.pid + 1 }
  else st

/-- The non-empty lines of the decoded text (`split('\n')` then filter by
truthiness of `line.trim()`). -/
def txtLines (text : String) : List String :=
  ((splitOnChar '\n' text.toList).map String.mk).filter (fun l => jsTrim l ≠ "")

/-- Chapters produced by `parseTxtFile` before book assembly. -/
def txtChapters (text : String) : List Chapter :=
  let st := (txtLines text).foldl txtStep txtInit
  if st.current.paragraphs.length > 0 then st.chapters ++ [st.current] else st.chapters

/-- `parseTxtFile`; `now` models `Date.now()`. -/
def parseTxtFile (f : MFile) (now : Nat) : Book :=
  let text := f.text
  let chapters := txtChapters text
  let totalParagraphs := (chapters.map (fun ch => ch.paragraphs.length)).sum
  let bookTitle := stripExt f.name
  { id := "uploaded-" ++ toString now,
    title := bookTitle,
    author := "Unknown Author",
    cover := placeholderCover bookTitle,
    rating := 0,
    pages := (totalParagraphs + 2) / 3,
    language := detectLanguage text,
    audioLength := "0h0m",
    genre := "Uploaded",
    synopsis := jsSubstring0 text 200 ++ "...",
    isFree := true,
    chapters := chapters,
    currentChapter := 0,
    currentParagraph := 0 }

/-! ## PDF extractor (`parsePdfFile`) -/

/-- Scanner for `pageText.split(/\n\n+|\. {2,}/)`: a separator is a
maximal run of at least two newlines, or a period followed by a maximal
run of at least two spaces (the period is consumed).  The two boolean
flags record that the scanner is still consuming the tail of a newline
or space run, keeping the recursion structural. -/
def pdfSplitAux : Bool → Bool → List Char → List Char → List (List Char)
  | _, _, [], acc => [acc.reverse]
  | true, _, '\n' :: rest, acc => pdfSplitAux true false rest acc
  | _, true, ' ' :: rest, acc => pdfSplitAux false true rest acc
  | _, _, '\n' :: '\n' :: rest, acc => acc.reverse :: pdfSplitAux true false rest []
  | _, _, '.' :: ' ' :: ' ' :: rest, acc => acc.reverse :: pdfSplitAux false true rest []
  | _, _, c :: rest, acc => pdfSplitAux false false rest (c :: acc)

/-- The paragraph candidates of one PDF page: split on the separator
regex, keep candidates whose trimmed length exceeds 20. -/
def pdfCandidates (pageText : String) : List String :=
  ((pdfSplitAux false false pageText.toList []).map String.mk).filter
    (fun p => jsLength (jsTrim p) > 20)

/-- Running state of the PDF page loop. -/
structure PdfState where
  chapters : List Chapter
  current : Chapter
  pid : Nat
  chapterCount : Nat
  allText : String
deriving Repr, DecidableEq

/-- Initial PDF state. -/
def pdfInit : PdfState :=
  { chapters := [], current := { id := "ch1", title := "Chapter 1", paragraphs := [] },
    pid := 0, chapterCount := 1, allText := "" }

/-- Processing of one paragraph candidate (the `paragraphs.forEach`
body): a short chapter-marker candidate starts a new chapter when the
running chapter is non-empty, otherwise the candidate is classified as
heading or plain paragraph. -/
def pdfPara (st : PdfState) (cand : String) : PdfState :=
  let trimmed := jsTrim cand
  if trimmed ≠ "" then
    if isChapterMarkerLine trimmed && jsLength trimmed < 100 &&
        st.current.paragraphs.length > 0 then
      { st with
        chapters := st.chapters ++ [st.current],
        chapterCount := st.chapterCount + 1,
        current := { id := "ch" ++ toString (st.chapterCount + 1), title := trimmed,
                     paragraphs := [] } }
    else
      let hd := isHeadingLine trimmed
      { st with
        current := { st.current with paragraphs := st.current.paragraphs ++
          [{ id := "p" ++ toString st.pid, text := trimmed,
             isHeading := some hd, headingLevel := if hd then some 3 else none }] },
        pid := st.pid + 1 }
  else st

/-- The every-10-pages break at the end of a text page: a new chapter is
forced when the page index is a multiple of 10 and the running chapter
holds more than 5 paragraphs (the source checks nothing else). -/
def pdfBreakCheck (i : Nat) (st : PdfState) : PdfState :=
  if i % 10 = 0 && st.current.paragraphs.length > 5 then
    { st with
      chapters := st.chapters ++ [st.current],
      chapterCount := st.chapterCount + 1,
      current := { id := "ch" ++ toString (st.chapterCount + 1),
                   title := "Chapter " ++ toString (st.chapterCount + 1),
                   paragraphs := [] } }
  else st

/-- Processing of one page (`i` is the 1-based page index): short-text
pages take the image route (one image paragraph when rasterisation
succeeds, nothing otherwise) and skip the break check via `continue`;
text pages run the candidate loop and then the break check. -/
def pdfProcessPage (i : Nat) (page : PdfPage) (st : PdfState) : PdfState :=
  let st := { st with allText := st.allText ++ page.text ++ "\n" }
  if jsLength (jsTrim page.text) < 100 then
    if page.renderOk then
      { st with
        current := { st.current with paragraphs := st.current.paragraphs ++
          [{ id := "p" ++ toString st.pid, text := "Page " ++ toString i,
             isImage := some true, imageUrl := some page.imageData,
             imageAlt := some ("Page " ++ toString i ++ " - Image/Diagram") }] },
        pid := st.pid + 1 }
    else st
  else
    pdfBreakCheck i ((pdfCandidates page.text).foldl pdfPara st)

/-- The whole page loop. -/
def pdfFold (pages : List PdfPage) : PdfState :=
  pages.enum.foldl (fun st ip => pdfProcessPage (ip.1 + 1) ip.2 st) pdfInit

/-- Chapter list after the page loop: push a non-empty running chapter,
then ensure at least one chapter exists by pushing the (empty) running
chapter when none was created. -/
def pdfChapters (pages : List PdfPage) : List Chapter :=
  let st := pdfFold pages
  let chs := if st.current.paragraphs.length > 0 then st.chapters ++ [st.current]
             else st.chapters
  if chs.length = 0 then chs ++ [st.current] else chs

/-- `parsePdfFile`; opening a corrupt or password-protected document
throws, modelled by `f.pdf = none`. -/
def parsePdfFile (f : MFile) (now : Nat) : Except ParseError Book :=
  match f.pdf with
  | none => .error .corruptPdf
  | some pages =>
    let st := pdfFold pages
    let chapters := pdfChapters pages
    let bookTitle := stripExt f.name
    .ok
      { id := "uploaded-" ++ toString now,
        title := bookTitle,
        author := "Unknown Author",
        cover := placeholderCover bookTitle,
        rating := 0,
        pages := pages.length,
        language := detectLanguage st.allText,
        audioLength := "0h0m",
        genre := "Uploaded",
        synopsis := jsSubstring0 st.allText 200 ++ "...",
        isFree := true,
        chapters := chapters,
        currentChapter := 0,
        currentParagraph := 0 }

example : txtChapters "Chapter One\nSome body text follows here." =
    [{ id := "ch1", title := "Chapter 1",
       paragraphs := [
        { id := "p0", text := "Chapter One", isHeading := some true, headingLevel := some 3 },
        { id := "p1", text := "Some body text follows here.", isHeading := some false,
          headingLevel := none }] }] := by decide


/-! ## EPUB metadata helpers (`cleanMetadata`, `htmlToText`) -/

/-- Replace every `/<[^>]*>/` span by a space: an unclosed `<` stays
literal, otherwise everything up to the first `>` is consumed.  The
boolean flag records that the scanner is inside a tag, keeping the
recursion structural. -/
def stripTags : Bool → List Char → List Char
  | true, '>' :: rest => stripTags false rest
  | true, _ :: rest => stripTags true rest
  | true, [] => []
  | false, [] => []
  | false, '<' :: rest =>
    if rest.any (fun c => c = '>') then ' ' :: stripTags true rest
    else '<' :: stripTags false rest
  | false, c :: rest => c :: stripTags false rest

/-- Collapse every whitespace run to a single space
(`replace(/\s+/g, ' ')`). -/
def collapseWsAux : List Char → Bool → List Char
  | [], _ => []
  | c :: cs, prev =>
    if isJsWs c then
      if prev then collapseWsAux cs true else ' ' :: collapseWsAux cs true
    else c :: collapseWsAux cs false

/-- JavaScript `text.replace(/\s+/g, ' ')`. -/
def collapseWs (s : String) : String := String.mk (collapseWsAux s.toList false)

/-- `cleanMetadata`: strip HTML tags (each replaced by a space), collapse
whitespace runs, trim.  The DOM round-trip used for entity decoding is
the identity on the entity-free text this model handles. -/
def cleanMetadata (s : String) : String :=
  if s = "" then "" else jsTrim (collapseWs (String.mk (stripTags false s.toList)))

mutual
/-- Text of a node excluding `script`/`style`/`head` subtrees. -/
def textNoScript : XNode → String
  | .text s => s
  | .elem t _ cs =>
    if t = "script" || t = "style" || t = "head" then "" else textNoScriptList cs
def textNoScriptList : List XNode → String
  | [] => ""
  | c :: cs => textNoScript c ++ textNoScriptList cs
end

/-- `htmlToText`: plain text of a parsed document with script/style/head
removed and whitespace collapsed. -/
def htmlToText (doc : XNode) : String := jsTrim (collapseWs (textNoScript doc))

/-! ## EPUB image path resolution (`resolvePath`, `processImage`) -/

/-- `resolvePath`: resolve `relative` against `base`, folding `..`
segments (a pop on an empty stack is a no-op, as `Array.pop` is) and
dropping `.` segments and empty segments. -/
def resolvePath (base relative : String) : String :=
  let baseParts := ((splitOnChar '/' base.toList).map String.mk).filter (fun p => p ≠ "")
  let relParts := ((splitOnChar '/' relative.toList).map String.mk).filter (fun p => p ≠ "")
  let parts := relParts.foldl
    (fun acc part =>
      if part = ".." then acc.dropLast
      else if part ≠ "." then acc ++ [part]
      else acc)
    baseParts
  joinWith "/" parts

/-- `imgSrc.replace(/^\.\.\//, '')`: drop one leading `../`. -/
def dropOneDotDot (s : String) : String :=
  if strStartsWith s "../" then String.mk (s.toList.drop 3) else s

/-- Collapse runs of slashes (`path.replace(/\/+/g, '/')`). -/
def collapseSlashesAux : List Char → Bool → List Char
  | [], _ => []
  | c :: cs, prev =>
    if c = '/' then
      if prev then collapseSlashesAux cs true else '/' :: collapseSlashesAux cs true
    else c :: collapseSlashesAux cs false

/-- The `cleanPath` normalisation applied to every candidate path. -/
def cleanPath (s : String) : String := String.mk (collapseSlashesAux s.toList false)

/-- Last `/`-separated segment of a source path (`split('/').pop()`). -/
def imgLastSegment (src : String) : String :=
  ((splitOnChar '/' src.toList).map String.mk).getLastD ""

/-- The ordered candidate list `possiblePaths` built by `processImage`:
the literal src; for `../` sources the src resolved against the parent
directory of the package base path; for relative sources the src behind
the base path, the bare src again, and every archive entry whose name
ends with the source's filename; for absolute sources the src without
its leading slash; and the src (also with one `../` stripped) behind
each common EPUB content-root prefix. -/
def possiblePaths (zipNames : List String) (basePath imgSrc : String) : List String :=
  [imgSrc]
  ++ (if strStartsWith imgSrc "../" then
        [resolvePath
          (joinWith "/" (((splitOnChar '/' basePath.toList).map String.mk).dropLast)) imgSrc]
      else [])
  ++ (if !strStartsWith imgSrc "http" && !strStartsWith imgSrc "/" then
        [basePath ++ imgSrc, imgSrc]
        ++ (let fn := imgLastSegment imgSrc
            if fn ≠ "" then zipNames.filter (fun nm => strEndsWith nm fn) else [])
      else [])
  ++ (if strStartsWith imgSrc "/" then [String.mk (imgSrc.toList.drop 1)] else [])
  ++ ((["OEBPS/", "OPS/", "EPUB/", "content/"].map
        (fun pre => [pre ++ imgSrc, pre ++ dropOneDotDot imgSrc])).flatten)

/-- First candidate path (after slash collapsing) that names an existing
archive entry. -/
def findImagePath (zipNames : List String) (basePath imgSrc : String) : Option String :=
  ((possiblePaths zipNames basePath imgSrc).map cleanPath).find?
    (fun p => zipNames.contains p)

/-- `processImage` on one `img` element: emit an image paragraph when
some candidate path resolves, nothing otherwise.  The base64 payload of
the data URL is abstracted by the resolved entry path. -/
def processImage (zipNames : List String) (basePath : String) (img : XNode) (pid : Nat) :
    Option Paragraph × Nat :=
  match img with
  | .text _ => (none, pid)
  | .elem _ attrs _ =>
    match getAttr attrs "src" with
    | none => (none, pid)
    | some imgSrc =>
      if imgSrc = "" then (none, pid)
      else
        let imgAlt := (getAttr attrs "alt").getD ""
        match findImagePath zipNames basePath imgSrc with
        | some path =>
          (some { id := "p" ++ toString pid,
                  text := if imgAlt ≠ "" then imgAlt else "Image",
                  isImage := some true,
                  imageUrl := some ("data:" ++ path),
                  imageAlt := some imgAlt }, pid + 1)
        | none => (none, pid)

/-- All `img` elements of the document processed in document order
(`querySelectorAll('img')` before the structural walk). -/
def processImages (zipNames : List String) (basePath : String) (doc : XNode) (pid : Nat) :
    List Paragraph × Nat :=
  ((elemsOf doc).filter (fun e => e.tag = "img")).foldl
    (fun acc img =>
      match processImage zipNames basePath img acc.2 with
      | (some p, pid2) => (acc.1 ++ [p], pid2)
      | (none, pid2) => (acc.1, pid2))
    ([], pid)

/-! ## EPUB structural walk (`processElement`) -/

/-- Tags treated as generic containers by the walk. -/
def containerTags : List String :=
  ["div", "section", "article", "main", "body", "figure", "aside", "header", "footer", "nav"]

/-- Tags of the `querySelector('p, div, section, h1, ..., h6')` probe
deciding whether a container recurses. -/
def blockProbeTags : List String :=
  ["p", "div", "section", "h1", "h2", "h3", "h4", "h5", "h6"]

/-- Whether an element has a block-level strict descendant. -/
def hasBlockDesc (n : XNode) : Bool :=
  (elemsOfList n.childNodes).any (fun e => blockProbeTags.contains e.tag)

/-- Heading level from an `h1`–`h6` tag name (`parseInt(tag.charAt(1))`). -/
def hTagLevel (tag : String) : Nat :=
  match tag.toList.drop 1 with
  | c :: _ => c.toNat - 48
  | [] => 0

/-- The leaf-container heading heuristic of the walk: short and not
ending in sentence punctuation (here including comma and semicolon). -/
def looksLikeHeading (t : String) : Bool :=
  jsLength t < 100 && !(lastCharIs t ['.', '!', '?', ',', ';'])

mutual
/-- `processElement`: classify one element into paragraphs, threading the
paragraph-ID counter.  `img` elements are skipped (already processed),
`h1`–`h6` become headings at their digit level unless equal to the
chapter title, `p` of trimmed length at least 20 becomes a plain
paragraph, containers recurse when they hold block descendants and are
otherwise emitted as leaf paragraphs flagged by the heading heuristic,
and any other element just recurses into its element children. -/
def processElement (chTitle : String) (pid : Nat) : XNode → List Paragraph × Nat
  | .text _ => ([], pid)
  | .elem tag attrs children =>
    if tag = "img" then ([], pid)
    else if tag = "h1" || tag = "h2" || tag = "h3" || tag = "h4" || tag = "h5" || tag = "h6" then
      let t := jsTrim (textContent (.elem tag attrs children))
      if t ≠ "" && t ≠ chTitle then
        ([{ id := "p" ++ toString pid, text := t,
            isHeading := some true, headingLevel := some (hTagLevel tag) }], pid + 1)
      else ([], pid)
    else if tag = "p" then
      let t := jsTrim (textContent (.elem tag attrs children))
      if t ≠ "" && jsLength t ≥ 20 then
        ([{ id := "p" ++ toString pid, text := t }], pid + 1)
      else ([], pid)
    else if containerTags.contains tag then
      if hasBlockDesc (.elem tag attrs children) then
        processChildren chTitle pid children
      else
        let t := jsTrim (textContent (.elem tag attrs children))
        if t ≠ "" && jsLength t ≥ 20 then
          let hd := looksLikeHeading t
          ([{ id := "p" ++ toString pid, text := t,
              isHeading := some hd, headingLevel := if hd then some 4 else none }], pid + 1)
        else ([], pid)
    else if (children.filter XNode.isElem).length > 0 then
      processChildren chTitle pid children
    else ([], pid)
/-- Walk over the element children of a node list (`for (const child of
element.children)`), threading the counter. -/
def processChildren (chTitle : String) (pid : Nat) : List XNode → List Paragraph × Nat
  | [] => ([], pid)
  | c :: cs =>
    match c with
    | .text _ => processChildren chTitle pid cs
    | .elem t a kids =>
      let r1 := processElement chTitle pid (.elem t a kids)
      let r2 := processChildren chTitle r1.2 cs
      (r1.1 ++ r2.1, r2.2)
end

/-! ## EPUB chapter-title extraction -/

/-- The five title selectors in priority order: `h1`, `h2`, `h3`,
`.chapter-title`, `title`. -/
def titleSelectors : List (XNode → Bool) :=
  [fun n => n.tag = "h1", fun n => n.tag = "h2", fun n => n.tag = "h3",
   fun n => hasClass n "chapter-title", fun n => n.tag = "title"]

/-- Walk the selector priority list: the first matched element with
non-empty raw text whose cleaned text is non-empty and shorter than 200
characters becomes the title and is removed from the document. -/
def extractTitleGo (doc : XNode) : List (XNode → Bool) → String × XNode
  | [] => ("", doc)
  | sel :: rest =>
    match querySelectorP doc sel with
    | some el =>
      if textContent el ≠ "" then
        let t := jsTrim (cleanMetadata (textContent el))
        if t ≠ "" && jsLength t < 200 then (t, removeFirstNode sel doc)
        else extractTitleGo doc rest
      else extractTitleGo doc rest
    | none => extractTitleGo doc rest

/-- Chapter-title extraction for one content document. -/
def extractChapterTitle (doc : XNode) : String × XNode :=
  extractTitleGo doc titleSelectors

/-! ## EPUB plain-text fallback -/

/-- Sentence terminators of the fallback splitter. -/
def isTermChar (c : Char) : Bool := c = '.' || c = '!' || c = '?'

/-- Scanner for `chapterText.match(/[^.!?]+[.!?]+/g)`: maximal runs of
non-terminators followed by maximal runs of terminators. -/
def sentencesAux : List Char → List Char → List Char → List String
  | [], nacc, tacc =>
    if !nacc.isEmpty && !tacc.isEmpty then [String.mk (nacc.reverse ++ tacc.reverse)] else []
  | c :: cs, nacc, tacc =>
    if isTermChar c then sentencesAux cs nacc (c :: tacc)
    else if !tacc.isEmpty then
      (if !nacc.isEmpty then [String.mk (nacc.reverse ++ tacc.reverse)] else [])
        ++ sentencesAux cs [c] []
    else sentencesAux cs (c :: nacc) []

/-- The sentence list of the fallback (`match(...) || [chapterText]`). -/
def jsSentences (s : String) : List String :=
  match sentencesAux s.toList [] [] with
  | [] => [s]
  | l => l

/-- Running state of the fallback accumulation loop. -/
structure FallbackState where
  paras : List Paragraph
  pid : Nat
  current : String
deriving Repr, DecidableEq

/-- One step of the fallback loop: append the sentence; once the
accumulator exceeds 150 characters emit it as a plain paragraph when its
trimmed length exceeds 30, and reset. -/
def epubFallbackStep (st : FallbackState) (sentence : String) : FallbackState :=
  let cur := st.current ++ sentence
  if jsLength cur > 150 then
    let trimmed := jsTrim cur
    if jsLength trimmed > 30 then
      { paras := st.paras ++ [{ id := "p" ++ toString st.pid, text := trimmed }],
        pid := st.pid + 1, current := "" }
    else { st with current := "" }
  else { st with current := cur }

/-- The whole fallback: greedy sentence accumulation, plus the final
flush of a trailing accumulator longer than 30 characters. -/
def epubFallback (chapterText : String) (pid : Nat) : List Paragraph × Nat :=
  let st := (jsSentences chapterText).foldl epubFallbackStep
    { paras := [], pid := pid, current := "" }
  if jsLength (jsTrim st.current) > 30 then
    (st.paras ++ [{ id := "p" ++ toString st.pid, text := jsTrim st.current }], st.pid + 1)
  else (st.paras, st.pid)

/-! ## EPUB cover selection and manifest map -/

/-- Manifest entries entered into the `manifestItems` map (`id` and
`href` both truthy). -/
def manifestValid (it : ManifestItem) : Bool := it.id ≠ "" && it.href ≠ ""

/-- `manifestItems.get(key)`: a JavaScript `Map` keeps the last `set`,
so the last valid item with the key wins. -/
def manifestGet (items : List ManifestItem) (key : String) : Option String :=
  (((items.filter manifestValid).reverse).find? (fun it => it.id = key)).map
    (fun it => it.href)

/-- The cover test applied to each manifest item inside the build loop:
explicit `cover-image` property, or id containing `cover`, or an image
media type with an href containing `cover`. -/
def itemIsCoverCandidate (it : ManifestItem) : Bool :=
  it.properties = some "cover-image" ||
  strIncludes (strToLower it.id) "cover" ||
  (match it.mediaType with
   | some mt => strStartsWith mt "image/" && strIncludes (strToLower it.href) "cover"
   | none => false)

/-- The manifest pass of cover selection: every matching valid item
overwrites `coverImagePath`, so the last match wins. -/
def coverFromManifest (items : List ManifestItem) : String :=
  items.foldl
    (fun acc it => if manifestValid it && itemIsCoverCandidate it then it.href else acc) ""

/-- Full cover selection: the manifest pass, then (only when it produced
nothing) the `<meta name="cover">` pointer resolved through the manifest
map. -/
def epubCoverPath (opf : OpfData) : String :=
  let fromManifest := coverFromManifest opf.manifest
  if fromManifest ≠ "" then fromManifest
  else
    match opf.metaCover with
    | some coverId =>
      if coverId ≠ "" then
        match manifestGet opf.manifest coverId with
        | some href => href
        | none => ""
      else ""
    | none => ""

/-! ## EPUB spine walk and book assembly -/

/-- `rootfilePath.substring(0, rootfilePath.lastIndexOf('/') + 1)`. -/
def basePathOf (rootfilePath : String) : String :=
  let rev := rootfilePath.toList.reverse
  if rev.any (fun c => c = '/') then
    String.mk (rev.dropWhile (fun c => c ≠ '/')).reverse
  else ""

/-- `htmlDoc.querySelector('body') || htmlDoc.documentElement`. -/
def bodyElementOf (doc : XNode) : XNode :=
  (querySelectorP doc (fun e => e.tag = "body")).getD doc

/-- Processing of one spine content document: title extraction with node
removal, the image pass over the whole document, the structural walk
over the body children, and the plain-text fallback (over the original
document) when the walk found nothing.  Returns `none` when the item is
skipped (fallback text shorter than 100 characters), otherwise the
chapter title, the paragraphs, and the text appended to `allText`. -/
def epubProcessDoc (zipNames : List String) (basePath : String) (doc : XNode) (pid : Nat) :
    Option (String × List Paragraph × String) × Nat :=
  let tr := extractChapterTitle doc
  let chapterTitle := tr.1
  let doc2 := tr.2
  let ir := processImages zipNames basePath doc2 pid
  let body := bodyElementOf doc2
  let wr := processChildren chapterTitle ir.2 body.childNodes
  let paras := ir.1 ++ wr.1
  if paras.isEmpty then
    let chapterText := htmlToText doc
    if jsLength chapterText < 100 then (none, wr.2)
    else
      let fr := epubFallback chapterText wr.2
      (some (chapterTitle, fr.1, chapterText ++ " "), fr.2)
  else
    (some (chapterTitle, paras, joinWith " " (paras.map (fun p => p.text)) ++ " "), wr.2)

/-- Accumulator of the spine loop: chapters so far, the book-global
paragraph-ID counter, and `allText`. -/
structure EpubAcc where
  chapters : List Chapter
  pid : Nat
  allText : String
deriving Repr, DecidableEq

/-- One spine item: falsy `idref`, unknown manifest id, and absent
content documents are skipped; a processed document is pushed as a
chapter only when it holds at least one paragraph, with the extracted or
synthesized title. -/
def epubSpineStep (inp : EpubInput) (opf : OpfData) (basePath : String)
    (acc : EpubAcc) (idref : Option String) : EpubAcc :=
  match idref with
  | none => acc
  | some idref =>
    if idref = "" then acc
    else
      match manifestGet opf.manifest idref with
      | none => acc
      | some href =>
        let contentPath := basePath ++ href
        match (inp.docs.find? (fun d => d.1 = contentPath)).map (fun d => d.2) with
        | none => acc
        | some doc =>
          match epubProcessDoc inp.zipNames basePath doc acc.pid with
          | (none, pid2) => { acc with pid := pid2 }
          | (some (title, paras, delta), pid2) =>
            if paras.length > 0 then
              let finalTitle :=
                if title ≠ "" then title else "Chapter " ++ toString (acc.chapters.length + 1)
              { chapters := acc.chapters ++
                  [{ id := "ch" ++ toString (acc.chapters.length + 1),
                     title := finalTitle, paragraphs := paras }],
                pid := pid2,
                allText := acc.allText ++ delta }
            else { acc with pid := pid2, allText := acc.allText ++ delta }

/-- The whole spine loop. -/
def epubSpineFold (inp : EpubInput) (opf : OpfData) (basePath : String) : EpubAcc :=
  opf.spine.foldl (epubSpineStep inp opf basePath) { chapters := [], pid := 0, allText := "" }

/-- `parseEpubFile`: container and package checks, metadata extraction,
cover selection, the spine walk, the no-readable-content check, cover
extraction (direct `basePath + coverImagePath` lookup, no candidate
list), and book assembly.  An archive `JSZip` cannot open is modelled by
`f.epub = none`. -/
def parseEpubFile (f : MFile) (now : Nat) : Except ParseError Book :=
  match f.epub with
  | none => .error (.invalidContainer "not a readable zip archive")
  | some inp =>
    if !inp.containerPresent then
      .error (.invalidContainer "META-INF/container.xml not found")
    else
      match inp.rootfilePath with
      | none => .error (.invalidContainer "rootfile path not found in container.xml")
      | some rootfilePath =>
        match inp.opf with
        | none => .error (.invalidContainer "content.opf not found")
        | some opf =>
          let title := cleanMetadata
            (match opf.title with
             | some t => if t ≠ "" then t else stripExt f.name
             | none => stripExt f.name)
          let author := cleanMetadata
            (match opf.creator with
             | some t => if t ≠ "" then t else "Unknown Author"
             | none => "Unknown Author")
          let description := cleanMetadata (opf.description.getD "")
          let basePath := basePathOf rootfilePath
          let coverImagePath := epubCoverPath opf
          let acc := epubSpineFold inp opf basePath
          if acc.chapters.length = 0 then .error .noReadableContent
          else
            let totalParagraphs := (acc.chapters.map (fun ch => ch.paragraphs.length)).sum
            let coverUrl :=
              if coverImagePath ≠ "" && inp.zipNames.contains (basePath ++ coverImagePath)
              then "data:" ++ (basePath ++ coverImagePath)
              else placeholderCover title
            .ok
              { id := "uploaded-" ++ toString now,
                title := title,
                author := author,
                cover := coverUrl,
                rating := 0,
                pages := (totalParagraphs + 2) / 3,
                language := detectLanguage acc.allText,
                audioLength := "0h0m",
                genre := "Uploaded",
                synopsis := if description ≠ "" then description
                            else jsSubstring0 acc.allText 200 ++ "...",
                isFree := true,
                chapters := acc.chapters,
                currentChapter := 0,
                currentParagraph := 0 }

/-! ## Dispatch (`parseBookFile`) -/

/-- `file.name.split('.').pop()?.toLowerCase()`. -/
def fileExtension (name : String) : String :=
  strToLower (((splitOnChar '.' name.toList).map String.mk).getLastD "")

/-- The `try` block of `parseBookFile`: extension dispatch, with an
unsupported-format error for any other extension. -/
def parseBookDispatch (f : MFile) (now : Nat) : Except ParseError Book :=
  let ext := fileExtension f.name
  if ext = "txt" then .ok (parseTxtFile f now)
  else if ext = "pdf" then parsePdfFile f now
  else if ext = "epub" then parseEpubFile f now
  else .error (.unsupportedFormat ext)

/-- `parseBookFile`: the surrounding `catch` turns every failure into
`null`, so the caller sees `Book | null`. -/
def parseBookFile (f : MFile) (now : Nat) : Option Book :=
  (parseBookDispatch f now).toOption


/-! ## Concrete inputs used by the claim theorems -/

/-- A parsed EPUB content document: heading, long paragraph, and an image
referenced as `../images/pic.png` from `OEBPS/text/ch1.xhtml`. -/
def c7Doc : XNode :=
  .elem "html" [] [
    .elem "head" [] [.elem "title" [] [.text "Doc Title"]],
    .elem "body" [] [
      .elem "h1" [] [.text "Chapter the First"],
      .elem "p" [] [.text "This paragraph carries enough characters to pass the twenty gate."],
      .elem "img" [("src", "../images/pic.png"), ("alt", "A picture")] []]]

/-- Archive entries of the sample EPUB: the asset lives at
`OEBPS/images/pic.png`. -/
def c7Zip : List String :=
  ["META-INF/container.xml", "OEBPS/content.opf", "OEBPS/text/ch1.xhtml", "OEBPS/images/pic.png"]

/-- Package document of the sample EPUB. -/
def c7Opf : OpfData :=
  { title := some "Demo Book",
    manifest := [{ id := "c1", href := "text/ch1.xhtml",
                   mediaType := some "application/xhtml+xml" }],
    spine := [some "c1"] }

/-- The sample EPUB input. -/
def c7Input : EpubInput :=
  { zipNames := c7Zip, rootfilePath := some "OEBPS/content.opf", opf := some c7Opf,
    docs := [("OEBPS/text/ch1.xhtml", c7Doc)] }

/-- A manifest whose first item carries the explicit `cover-image`
property and whose second, later item has an id containing `cover`. -/
def c4Items : List ManifestItem :=
  [{ id := "img1", href := "images/front.png",
     properties := some "cover-image", mediaType := some "image/png" },
   { id := "cover-page", href := "text/cover.xhtml",
     mediaType := some "application/xhtml+xml" }]

/-- Eleven extracted PDF pages: a long plain first page, a second page
whose first candidate is an explicit chapter marker, seven pages whose
rasterisation fails, a tenth page holding six candidates, and a final
page with one candidate. -/
def c5Pages : List PdfPage :=
  [{ text := "This opening page paragraph carries well over one hundred characters of plain narrative text so that the parser takes the text route." },
   { text := "Chapter Two The Grand Journey Begins.  Afterwards the narrative continues with a long stretch of further prose to fill the page." },
   { text := "", renderOk := false }, { text := "", renderOk := false },
   { text := "", renderOk := false }, { text := "", renderOk := false },
   { text := "", renderOk := false }, { text := "", renderOk := false },
   { text := "", renderOk := false },
   { text := "The tenth page carries paragraph number one here.  The tenth page carries paragraph number two here.  The tenth page carries paragraph number three here.  The tenth page carries paragraph number four here.  The tenth page carries paragraph number five here.  The tenth page carries paragraph number six here." },
   { text := "The eleventh page adds one more closing paragraph with plenty of extra characters to pass the length gate." }]

/-- A content document yielding nothing: no structural paragraphs and a
fallback text far below 100 characters. -/
def c1EmptyDoc : XNode :=
  .elem "html" [] [.elem "body" [] [.elem "p" [] [.text "tiny"]]]

/-- An EPUB whose single spine item yields no content at all. -/
def c1EmptyEpub : EpubInput :=
  { zipNames := ["META-INF/container.xml", "OEBPS/content.opf", "OEBPS/ch1.xhtml"],
    rootfilePath := some "OEBPS/content.opf",
    opf := some { manifest := [{ id := "c1", href := "ch1.xhtml" }], spine := [some "c1"] },
    docs := [("OEBPS/ch1.xhtml", c1EmptyDoc)] }

/-- The paragraph that the first `Chapter One` line of a TXT file turns
into (a heading absorbed into the synthesized first chapter). -/
def c2Para : Paragraph :=
  { id := "p0", text := "Chapter One", isHeading := some true, headingLevel := some 3 }

/-- The TXT loop state after consuming a leading `Chapter One` line. -/
def c2State : TxtState :=
  { chapters := [],
    current := { id := "ch1", title := "Chapter 1", paragraphs := [c2Para] },
    pid := 1,
    chapterCount := 1 }

/-! ## Observation functions used by the claim statements -/

/-- The spec's notion of a CJK-range character: CJK ideographs,
Hiragana/Katakana, Hangul (stated for the refinement comparison of the
language-detection claim; the source only matches `[一-龥]`). -/
def isCjkSpecChar (c : Char) : Bool :=
  (0x4e00 ≤ c.toNat && c.toNat ≤ 0x9fff) ||
  (0x3400 ≤ c.toNat && c.toNat ≤ 0x4dbf) ||
  (0x3040 ≤ c.toNat && c.toNat ≤ 0x30ff) ||
  (0xac00 ≤ c.toNat && c.toNat ≤ 0xd7af) ||
  (0x1100 ≤ c.toNat && c.toNat ≤ 0x11ff)

/-- Count of spec-CJK characters of a text. -/
def cjkSpecCount (text : String) : Nat :=
  (text.toList.filter isCjkSpecChar).length

/-- Paragraph id `p<k>`. -/
def pidName (k : Nat) : String := "p" ++ toString k

/-- The id sequence `p<start>, p<start+1>, ...` of length `n`. -/
def pidSeq (start n : Nat) : List String := (List.range' start n).map pidName

/-- All paragraph ids of a chapter list, in reading order. -/
def bookParaIds (chs : List Chapter) : List String :=
  ((chs.map Chapter.paragraphs).flatten).map Paragraph.id

/-- Specification of one paragraph-emitting step: the counter advanced
by the number of emitted paragraphs, whose ids continue the sequence at
`pid`. -/
def idChunk (pid : Nat) (r : List Paragraph × Nat) : Prop :=
  r.2 = pid + r.1.length ∧ r.1.map Paragraph.id = pidSeq pid r.1.length

/-- Specification of a TXT/PDF loop state: all paragraphs emitted so far
(finished chapters, then the running chapter) carry the ids
`p0 … p(pid-1)` in order. -/
def stateIds (chapters : List Chapter) (current : Chapter) (pid : Nat) : Prop :=
  ((chapters.map Chapter.paragraphs).flatten ++ current.paragraphs).map Paragraph.id =
    pidSeq 0 pid

/-- The heading-level invariant of one paragraph: a heading carries a
defined level between 1 and 6, anything else carries no level. -/
def headingOK (p : Paragraph) : Bool :=
  if p.isHeading = some true then
    match p.headingLevel with
    | some n => decide (1 ≤ n) && decide (n ≤ 6)
    | none => false
  else p.headingLevel = none

/-- The invariant over a whole book. -/
def paragraphsOK (b : Book) : Bool :=
  b.chapters.all (fun ch => ch.paragraphs.all headingOK)

/-- Observable kind of a paragraph (image / heading / plain). -/
def paragraphKind (p : Paragraph) : String :=
  if p.isImage = some true then "image"
  else if p.isHeading = some true then "heading"
  else "plain"

/-- Structural content of a book: chapter titles with each paragraph's
text and kind — everything except generated IDs and derived metadata. -/
def bookStruct (b : Book) : List (String × List (String × String)) :=
  b.chapters.map (fun ch => (ch.title, ch.paragraphs.map (fun p => (p.text, paragraphKind p))))


/-! # Helper lemmas -/

/-- A non-empty string has positive UTF-16 length. -/
theorem jsLength_pos (s : String) (h : s ≠ "") : 0 < jsLength s := by
  obtain ⟨l⟩ := s
  cases l with
  | nil => exact absurd rfl h
  | cons c cs =>
    have hc : 1 ≤ jsUnits c := by unfold jsUnits; split <;> omega
    simp [jsLength]
    omega

/-- A plain (non-marker, non-blank) line only appends one paragraph to
the running chapter of the TXT loop. -/
theorem txtStep_plain (st : TxtState) (l : String)
    (h1 : jsTrim l ≠ "") (h2 : isChapterMarkerLine (jsTrim l) = false) :
    (txtStep st l).chapters = st.chapters ∧
    (txtStep st l).current.id = st.current.id ∧
    (txtStep st l).current.title = st.current.title ∧
    ∃ p, (txtStep st l).current.paragraphs = st.current.paragraphs ++ [p] := by
  have hpos : 0 < jsLength (jsTrim l) := jsLength_pos _ h1
  unfold txtStep
  simp [h2, hpos]

/-- A run of plain lines preserves the chapter list and the identity of
the running chapter, only extending its paragraphs. -/
theorem txtFold_plain (body : List String)
    (h : ∀ l ∈ body, jsTrim l ≠ "" ∧ isChapterMarkerLine (jsTrim l) = false)
    (st : TxtState) :
    (body.foldl txtStep st).chapters = st.chapters ∧
    (body.foldl txtStep st).current.id = st.current.id ∧
    (body.foldl txtStep st).current.title = st.current.title ∧
    ∃ ps, (body.foldl txtStep st).current.paragraphs = st.current.paragraphs ++ ps := by
  induction body generalizing st with
  | nil => exact ⟨rfl, rfl, rfl, [], by simp⟩
  | cons l rest ih =>
    have hl := h l (by simp)
    have hstep := txtStep_plain st l hl.1 hl.2
    obtain ⟨p, hp⟩ := hstep.2.2.2
    have hrest := ih (fun x hx => h x (by simp [hx])) (txtStep st l)
    obtain ⟨ps, hps⟩ := hrest.2.2.2
    refine ⟨?_, ?_, ?_, p :: ps, ?_⟩
    · simpa [hstep.1] using hrest.1
    · simpa [hstep.2.1] using hrest.2.1
    · simpa [hstep.2.2.1] using hrest.2.2.1
    · simp [List.foldl_cons] at hps ⊢
      rw [hps, hp]
      simp

/-! # Claim C1 -/

/-- Claim C1 (counterexample): zero recovered content does not escalate
to a terminal error for TXT and PDF: `parseTxtFile` on whitespace-only
input returns a Book with zero chapters, and `parsePdfFile` on a
document yielding no paragraphs returns a Book with exactly one empty
chapter, contrary to the claimed NoReadableContent escalation. -/
theorem C1_counterexample :
    (parseTxtFile { name := "blank.txt", text := " \n  \n" } 0).chapters = [] ∧
    (parsePdfFile { name := "empty.pdf", pdf := some [] } 0).toOption.map
      (fun b => b.chapters.map (fun ch => (ch.title, ch.paragraphs))) =
      some [("Chapter 1", [])] := by
  constructor
  · decide
  · decide

/-- Claim C1 (amended): only the EPUB extractor escalates zero recovered
chapters to the NoReadableContent terminal error; `parseTxtFile` on
input with no non-blank lines returns a Book with zero chapters, and
`parsePdfFile` returns a Book holding exactly the empty running chapter
when nothing was collected. -/
theorem C1_amended :
    (∀ (f : MFile) (now : Nat), txtLines f.text = [] →
      (parseTxtFile f now).chapters = []) ∧
    (∀ (f : MFile) (pages : List PdfPage) (now : Nat),
      f.pdf = some pages →
      (pdfFold pages).chapters = [] →
      (pdfFold pages).current.paragraphs = [] →
      (parsePdfFile f now).toOption.map Book.chapters = some [(pdfFold pages).current]) ∧
    (∀ (f : MFile) (inp : EpubInput) (rp : String) (opf : OpfData) (now : Nat),
      f.epub = some inp → inp.containerPresent = true →
      inp.rootfilePath = some rp → inp.opf = some opf →
      (epubSpineFold inp opf (basePathOf rp)).chapters.length = 0 →
      parseEpubFile f now = .error .noReadableContent) := by
  refine ⟨?_, ?_, ?_⟩
  · intro f now h
    simp [parseTxtFile, txtChapters, h, txtInit]
  · intro f pages now hf h1 h2
    simp [parsePdfFile, hf, Except.toOption, pdfChapters, h1, h2]
  · intro f inp rp opf now hf hc hr ho h5
    simp [parseEpubFile, hf, hc, hr, ho, h5]

/-- Claim C1 (witness): the amended statement at concrete inputs. -/
theorem C1_amended_witness :
    (parseTxtFile { name := "blank.txt", text := " \n  \n" } 0).chapters = [] ∧
    (parsePdfFile { name := "empty.pdf", pdf := some [] } 0).toOption.map Book.chapters =
      some [(pdfFold []).current] ∧
    parseEpubFile { name := "e.epub", epub := some c1EmptyEpub } 0 =
      .error .noReadableContent :=
  ⟨C1_amended.1 { name := "blank.txt", text := " \n  \n" } 0 (by decide),
   C1_amended.2.1 { name := "empty.pdf", pdf := some [] } [] 0 rfl (by decide) (by decide),
   C1_amended.2.2 { name := "e.epub", epub := some c1EmptyEpub } c1EmptyEpub
     "OEBPS/content.opf" _ 0 rfl rfl rfl rfl (by decide)⟩

/-! # Claim C2 -/

/-- Claim C2 (counterexample): a TXT whose first non-empty line is
`Chapter One` followed by body text yields one chapter titled
`Chapter 1` — the synthesized default — not `Chapter One` as claimed. -/
theorem C2_counterexample :
    (parseTxtFile
      { name := "sample.txt", text := "Chapter One\nSome body text follows here." }
      0).chapters.map Chapter.title
      = ["Chapter 1"] ∧ ("Chapter 1" : String) ≠ "Chapter One" := by
  constructor
  · decide
  · decide

/-- Claim C2 (amended): such an input yields exactly one chapter with no
spurious empty leading chapter, but the chapter keeps the synthesized
title `Chapter 1` and the line `Chapter One` is absorbed as the
chapter's first paragraph (a heading), not used as the title. -/
theorem C2_amended (text : String) (body : List String)
    (hsplit : txtLines text = "Chapter One" :: body)
    (hbody : ∀ l ∈ body, isChapterMarkerLine (jsTrim l) = false) :
    ∃ rest, txtChapters text =
      [{ id := "ch1", title := "Chapter 1", paragraphs := c2Para :: rest }] := by
  have hmem : ∀ l ∈ body, jsTrim l ≠ "" := by
    intro l hl
    have hin : l ∈ txtLines text := by rw [hsplit]; exact List.mem_cons_of_mem _ hl
    unfold txtLines at hin
    have := List.of_mem_filter hin
    simpa using this
  have hstep1 : txtStep txtInit "Chapter One" = c2State := by decide
  have hfold := txtFold_plain body (fun l hl => ⟨hmem l hl, hbody l hl⟩) c2State
  obtain ⟨ps, hps⟩ := hfold.2.2.2
  have hcur : (body.foldl txtStep c2State).current =
      { id := "ch1", title := "Chapter 1", paragraphs := c2Para :: ps } := by
    have h1 := hfold.2.1
    have h2 := hfold.2.2.1
    cases hc : (body.foldl txtStep c2State).current with
    | mk cid ctitle cparas =>
      rw [hc] at h1 h2 hps
      simp only [c2State] at h1 h2 hps
      simp at h1 h2 hps
      simp [h1, h2, hps]
  have hchs : (body.foldl txtStep c2State).chapters = [] := by
    have := hfold.1
    simpa [c2State] using this
  refine ⟨ps, ?_⟩
  unfold txtChapters
  rw [hsplit]
  simp only [List.foldl_cons]
  rw [hstep1]
  simp [hcur, hchs]

/-- Claim C2 (witness): the amended statement at the concrete input. -/
theorem C2_amended_witness :
    ∃ rest, txtChapters "Chapter One\nSome body text follows here." =
      [{ id := "ch1", title := "Chapter 1", paragraphs := c2Para :: rest }] :=
  C2_amended "Chapter One\nSome body text follows here." ["Some body text follows here."]
    (by decide) (by decide)

/-! # Claim C3 -/

/-- Claim C3 (counterexample): a text whose non-whitespace characters
are 40% Hiragana is classified `English`, although the claim's
CJK-range notion (ideographs, kana, Hangul) puts it over the 30%
threshold: the source only counts `[一-龥]`. -/
theorem C3_counterexample :
    10 * cjkSpecCount "ああ abc" = 4 * nonWsCount "ああ abc" ∧
    3 * nonWsCount "ああ abc" < 10 * cjkSpecCount "ああ abc" ∧
    detectLanguage "ああ abc" = "English" := by
  refine ⟨?_, ?_, ?_⟩ <;> decide

/-- Claim C3 (amended): `detectLanguage` classifies a text as the CJK
family (`Chinese`) exactly when at least one character lies in the
ideograph range U+4E00–U+9FA5 and the ratio of such characters to
non-whitespace characters exceeds 30%; Hiragana/Katakana and Hangul are
not counted, so a 40%-kana text is `English`, while a 40%-ideograph
text is `Chinese` and a 10%-ideograph text is `English`. -/
theorem C3_amended :
    (∀ text, detectLanguage text = "Chinese" ↔
      (0 < chineseCount text ∧ 3 * nonWsCount text < 10 * chineseCount text)) ∧
    detectLanguage "龍龍 abc" = "Chinese" ∧
    detectLanguage "龍 abcdefghi" = "English" ∧
    detectLanguage "ああ abc" = "English" := by
  refine ⟨?_, by decide, by decide, by decide⟩
  intro text
  unfold detectLanguage
  by_cases h1 : 0 < chineseCount text <;>
    by_cases h2 : 3 * nonWsCount text < 10 * chineseCount text <;>
      simp [h1, h2, Nat.pos_iff_ne_zero]

/-! # Claim C4 -/

/-- Claim C4 (counterexample): the cover search is not first-match-wins
by priority: a manifest item with the explicit `cover-image` property is
overridden by a later item whose id contains `cover`, because every
match overwrites the selection. -/
theorem C4_counterexample :
    coverFromManifest c4Items = "text/cover.xhtml" ∧
    epubCoverPath { manifest := c4Items } = "text/cover.xhtml" ∧
    ("text/cover.xhtml" : String) ≠ "images/front.png" := by
  refine ⟨?_, ?_, ?_⟩ <;> decide

/-- Claim C4 (amended): among manifest items the LAST matching valid
item wins (so an explicit `cover-image` property is overridden by any
later match, e.g. an id containing `cover`); the `<meta name="cover">`
pointer is consulted only when no manifest item matched, and then the
id it names is resolved through the manifest map. -/
theorem C4_amended :
    (∀ (l1 l2 : List ManifestItem) (it : ManifestItem),
      manifestValid it = true → itemIsCoverCandidate it = true →
      (∀ x ∈ l2, manifestValid x = true → itemIsCoverCandidate x = false) →
      coverFromManifest (l1 ++ it :: l2) = it.href) ∧
    (∀ opf : OpfData, coverFromManifest opf.manifest ≠ "" →
      epubCoverPath opf = coverFromManifest opf.manifest) ∧
    (∀ (opf : OpfData) (cid href : String),
      coverFromManifest opf.manifest = "" → opf.metaCover = some cid → cid ≠ "" →
      manifestGet opf.manifest cid = some href →
      epubCoverPath opf = href) := by
  refine ⟨?_, ?_, ?_⟩
  · intro l1 l2 it hv hc hl2
    unfold coverFromManifest
    rw [List.foldl_append]
    simp only [List.foldl_cons]
    rw [if_pos (by simp [hv, hc])]
    induction l2 with
    | nil => simp
    | cons x xs ih =>
      simp only [List.foldl_cons]
      by_cases hvx : manifestValid x = true
      · rw [if_neg (by simp [hl2 x (by simp) hvx])]
        exact ih (fun y hy => hl2 y (by simp [hy]))
      · rw [if_neg (by simp [hvx])]
        exact ih (fun y hy => hl2 y (by simp [hy]))
  · intro opf h
    unfold epubCoverPath
    simp [h]
  · intro opf cid href h0 hm hcid hget
    unfold epubCoverPath
    simp [h0, hm, hcid, hget]

/-- Claim C4 (witness): the amended statement at concrete manifests. -/
theorem C4_amended_witness :
    coverFromManifest
      ([{ id := "img1", href := "images/front.png",
          properties := some "cover-image", mediaType := some "image/png" }] ++
        { id := "cover-page", href := "text/cover.xhtml",
          mediaType := some "application/xhtml+xml" } :: []) = "text/cover.xhtml" ∧
    epubCoverPath { manifest := c4Items } = coverFromManifest c4Items ∧
    epubCoverPath
      { manifest := [{ id := "imgx", href := "images/x.png", mediaType := some "image/png" }],
        metaCover := some "imgx" } = "images/x.png" :=
  ⟨C4_amended.1 _ []
      { id := "cover-page", href := "text/cover.xhtml",
        mediaType := some "application/xhtml+xml" }
      (by decide) (by decide) (by intro x hx; simp at hx),
   C4_amended.2.1 { manifest := c4Items } (by decide),
   C4_amended.2.2
     { manifest := [{ id := "imgx", href := "images/x.png", mediaType := some "image/png" }],
       metaCover := some "imgx" }
     "imgx" "images/x.png" (by decide) rfl (by decide) (by decide)⟩

/-! # Claim C5 -/

set_option maxRecDepth 16384 in
/-- Claim C5 (counterexample): after an explicit chapter marker started
the second chapter on page 2, the multiple-of-10 break still fires on
page 10 (more than 5 accumulated paragraphs), producing a forced
`Chapter 3` that receives the page-11 paragraph — the claimed
only-before-markers restriction does not exist in the code. -/
theorem C5_counterexample :
    (pdfChapters c5Pages).map (fun ch => (ch.title, ch.paragraphs.map Paragraph.text)) =
      [("Chapter 1",
        ["This opening page paragraph carries well over one hundred characters of plain narrative text so that the parser takes the text route."]),
       ("Chapter Two The Grand Journey Begins",
        ["Afterwards the narrative continues with a long stretch of further prose to fill the page.",
         "The tenth page carries paragraph number one here",
         "The tenth page carries paragraph number two here",
         "The tenth page carries paragraph number three here",
         "The tenth page carries paragraph number four here",
         "The tenth page carries paragraph number five here",
         "The tenth page carries paragraph number six here."]),
       ("Chapter 3",
        ["The eleventh page adds one more closing paragraph with plenty of extra characters to pass the length gate."])] := by
  decide

/-- Claim C5 (amended): on every text page whose index is a multiple of
10, the forced break fires exactly when the running chapter holds more
than 5 paragraphs after the page's candidates were processed — for an
arbitrary prior state, so regardless of whether explicit chapter markers
have fired; short pages take the image route and skip the check. -/
theorem C5_amended (i : Nat) (page : PdfPage) (st : PdfState)
    (hlong : ¬ jsLength (jsTrim page.text) < 100) (hmod : i % 10 = 0)
    (hcount : 5 < ((pdfCandidates page.text).foldl pdfPara
        { st with allText := st.allText ++ page.text ++ "\n" }).current.paragraphs.length) :
    pdfProcessPage i page st =
      (let st2 := (pdfCandidates page.text).foldl pdfPara
        { st with allText := st.allText ++ page.text ++ "\n" }
       { st2 with
         chapters := st2.chapters ++ [st2.current],
         chapterCount := st2.chapterCount + 1,
         current := { id := "ch" ++ toString (st2.chapterCount + 1),
                      title := "Chapter " ++ toString (st2.chapterCount + 1),
                      paragraphs := [] } }) := by
  unfold pdfProcessPage
  rw [if_neg hlong]
  unfold pdfBreakCheck
  rw [if_pos (by simp [hmod, hcount])]

set_option maxRecDepth 16384 in
/-- Claim C5 (witness): the amended statement at page 10 of the concrete
document, whose prior state holds a marker-started chapter. -/
theorem C5_amended_witness :
    pdfProcessPage 10
      { text := "The tenth page carries paragraph number one here.  The tenth page carries paragraph number two here.  The tenth page carries paragraph number three here.  The tenth page carries paragraph number four here.  The tenth page carries paragraph number five here.  The tenth page carries paragraph number six here." }
      (pdfFold (c5Pages.take 9)) =
      (let st2 := (pdfCandidates
          "The tenth page carries paragraph number one here.  The tenth page carries paragraph number two here.  The tenth page carries paragraph number three here.  The tenth page carries paragraph number four here.  The tenth page carries paragraph number five here.  The tenth page carries paragraph number six here.").foldl
          pdfPara
          { pdfFold (c5Pages.take 9) with
            allText := (pdfFold (c5Pages.take 9)).allText ++
              "The tenth page carries paragraph number one here.  The tenth page carries paragraph number two here.  The tenth page carries paragraph number three here.  The tenth page carries paragraph number four here.  The tenth page carries paragraph number five here.  The tenth page carries paragraph number six here." ++ "\n" }
       { st2 with
         chapters := st2.chapters ++ [st2.current],
         chapterCount := st2.chapterCount + 1,
         current := { id := "ch" ++ toString (st2.chapterCount + 1),
                      title := "Chapter " ++ toString (st2.chapterCount + 1),
                      paragraphs := [] } }) :=
  C5_amended 10 _ (pdfFold (c5Pages.take 9)) (by decide) (by decide) (by decide)

/-! # Claim C6 -/

/-- Claim C6 (counterexample): an unsupported extension and a malformed
EPUB both surface to the caller of `parseBookFile` as the same `null`
value — the failure kinds are not distinguishable at this interface,
contrary to the claimed caller-visible typed failure. -/
theorem C6_counterexample :
    parseBookFile { name := "document.docx", text := "plain words" } 0 = none ∧
    parseBookFile { name := "broken.epub" } 0 = none := by
  refine ⟨?_, ?_⟩ <;> decide

/-- Claim C6 (amended): `parseBookFile` fails immediately for every
extension other than `txt`/`pdf`/`epub` — the internal dispatch throws a
typed unsupported-format error before any parser runs — but the
surrounding catch collapses every failure to `null`, so no failure kind
is distinguishable by the caller. -/
theorem C6_amended :
    (∀ (f : MFile) (now : Nat), parseBookFile f now = (parseBookDispatch f now).toOption) ∧
    (∀ (f : MFile) (now : Nat),
      fileExtension f.name ≠ "txt" → fileExtension f.name ≠ "pdf" →
      fileExtension f.name ≠ "epub" →
      parseBookDispatch f now = .error (.unsupportedFormat (fileExtension f.name)) ∧
      parseBookFile f now = none) := by
  refine ⟨fun f now => rfl, ?_⟩
  intro f now h1 h2 h3
  have hd : parseBookDispatch f now = .error (.unsupportedFormat (fileExtension f.name)) := by
    unfold parseBookDispatch
    rw [if_neg (by simpa using h1), if_neg (by simpa using h2), if_neg (by simpa using h3)]
  exact ⟨hd, by simp [parseBookFile, hd, Except.toOption]⟩

/-- Claim C6 (witness): the amended statement at a `.docx` file. -/
theorem C6_amended_witness :
    parseBookFile { name := "document.docx", text := "plain words" } 0 =
      (parseBookDispatch { name := "document.docx", text := "plain words" } 0).toOption ∧
    parseBookDispatch { name := "document.docx", text := "plain words" } 0 =
      .error (.unsupportedFormat (fileExtension "document.docx")) ∧
    parseBookFile { name := "document.docx", text := "plain words" } 0 = none :=
  ⟨C6_amended.1 { name := "document.docx", text := "plain words" } 0,
   (C6_amended.2 { name := "document.docx", text := "plain words" } 0
      (by decide) (by decide) (by decide)).1,
   (C6_amended.2 { name := "document.docx", text := "plain words" } 0
      (by decide) (by decide) (by decide)).2⟩

/-! # Claim C7 -/

/-- Claim C7 (confirmed): for `<img src="../images/pic.png">` referenced
from `OEBPS/text/ch1.xhtml` with the asset at `OEBPS/images/pic.png`,
the ordered candidate resolution finds an existing archive entry (the
entry-name-suffix candidate), and the full EPUB parse emits the image as
an image paragraph rather than dropping it. -/
theorem C7_image_resolution :
    findImagePath c7Zip "OEBPS/" "../images/pic.png" = some "OEBPS/images/pic.png" ∧
    (parseEpubFile { name := "b.epub", epub := some c7Input } 0).toOption.map
      (fun b => b.chapters.map (fun ch => ch.paragraphs.map (fun p => (p.text, p.isImage)))) =
      some [[("A picture", some true),
             ("This paragraph carries enough characters to pass the twenty gate.", none)]] := by
  refine ⟨?_, ?_⟩ <;> decide

/-! # Claim C8 -/

/-- Claim C8 (counterexample): the TXT paragraph-ID counter does not
reset at chapter boundaries: in a two-chapter TXT parse the first
paragraph of the second chapter has id `p1`, not `p0`. -/
theorem C8_counterexample :
    (txtChapters
        "First paragraph of the intro text.\nChapter Two\nBody of chapter two text here.").map
      (fun ch => (ch.title, ch.paragraphs.map Paragraph.id)) =
      [("Chapter 1", ["p0"]), ("Chapter Two", ["p1"])] ∧
    ("p1" : String) ≠ "p0" := by
  refine ⟨?_, ?_⟩ <;> decide






/-! # Claim C9 -/

/-- The structural content of a TXT parse does not depend on the
timestamp. -/
theorem parseTxtFile_struct (f : MFile) (n1 n2 : Nat) :
    bookStruct (parseTxtFile f n1) = bookStruct (parseTxtFile f n2) := rfl

/-- The structural content of a PDF parse does not depend on the
timestamp. -/
theorem parsePdfFile_struct (f : MFile) (n1 n2 : Nat) :
    (parsePdfFile f n1).toOption.map bookStruct =
      (parsePdfFile f n2).toOption.map bookStruct := by
  cases hp : f.pdf with
  | none => simp [parsePdfFile, hp]
  | some pages =>
    simp only [parsePdfFile, hp, Except.toOption]
    rfl

/-- The structural content of an EPUB parse does not depend on the
timestamp. -/
theorem parseEpubFile_struct (f : MFile) (n1 n2 : Nat) :
    (parseEpubFile f n1).toOption.map bookStruct =
      (parseEpubFile f n2).toOption.map bookStruct := by
  cases he : f.epub with
  | none => simp [parseEpubFile, he]
  | some inp =>
    simp only [parseEpubFile, he]
    cases hc : inp.containerPresent
    · simp
    · simp only [Bool.not_true, Bool.false_eq_true, if_false]
      cases hr : inp.rootfilePath with
      | none => simp
      | some rp =>
        cases ho : inp.opf with
        | none => simp
        | some opf =>
          by_cases hz : (epubSpineFold inp opf (basePathOf rp)).chapters.length = 0
          · simp [hz]
          · simp only [hz, if_neg, Except.toOption]
            rfl

/-- Claim C9 (confirmed): parsing byte-identical input twice yields
structurally identical results — identical chapter titles and identical
paragraph text/kind sequences — even though the generated book id
differs with the timestamp. -/
theorem C9_structural_idempotence (f : MFile) (now1 now2 : Nat) :
    (parseBookFile f now1).map bookStruct = (parseBookFile f now2).map bookStruct := by
  unfold parseBookFile parseBookDispatch
  by_cases h1 : fileExtension f.name = "txt"
  · simp [h1, Except.toOption, parseTxtFile_struct f now1 now2]
  · by_cases h2 : fileExtension f.name = "pdf"
    · simpa [h1, h2] using parsePdfFile_struct f now1 now2
    · by_cases h3 : fileExtension f.name = "epub"
      · simpa [h1, h2, h3] using parseEpubFile_struct f now1 now2
      · simp [h1, h2, h3]

/-! # Claim C10 -/

/-- Paragraphs classified by the shared TXT/PDF heuristic satisfy the
heading invariant: level 3 exactly when flagged. -/
theorem headingOK_level3 (hd : Bool) (i t : String) :
    headingOK { id := i, text := t, isHeading := some hd,
                headingLevel := if hd then some 3 else none } = true := by
  cases hd <;> simp [headingOK]

/-- Leaf-container paragraphs of the EPUB walk satisfy the invariant:
level 4 exactly when flagged. -/
theorem headingOK_level4 (hd : Bool) (i t : String) :
    headingOK { id := i, text := t, isHeading := some hd,
                headingLevel := if hd then some 4 else none } = true := by
  cases hd <;> simp [headingOK]

/-- Image paragraphs satisfy the invariant (no heading flag, no level). -/
theorem headingOK_image (i t u a : String) :
    headingOK { id := i, text := t, isImage := some true,
                imageUrl := some u, imageAlt := some a } = true := by
  simp [headingOK]

/-- Plain paragraphs with no flags satisfy the invariant. -/
theorem headingOK_plain (i t : String) :
    headingOK { id := i, text := t } = true := by
  simp [headingOK]

/-- A fold preserves any invariant its step preserves. -/
theorem foldl_preserve {α σ : Type} (P : σ → Prop) (f : σ → α → σ)
    (h : ∀ s a, P s → P (f s a)) :
    ∀ (l : List α) (s : σ), P s → P (l.foldl f s) := by
  intro l
  induction l with
  | nil => intro s hs; exact hs
  | cons a as ih => intro s hs; exact ih _ (h s a hs)

/-- Invariant of the TXT/PDF chapter state: all emitted paragraphs are
heading-sound. -/
def stateOK (chapters : List Chapter) (current : Chapter) : Prop :=
  chapters.all (fun ch => ch.paragraphs.all headingOK) = true ∧
  current.paragraphs.all headingOK = true

/-- The TXT line step preserves heading soundness. -/
theorem txtStep_ok (st : TxtState) (l : String)
    (h : stateOK st.chapters st.current) :
    stateOK (txtStep st l).chapters (txtStep st l).current := by
  obtain ⟨h1, h2⟩ := h
  simp only [stateOK, txtStep]
  split_ifs with ha hb hc
  · exact ⟨by simp [List.all_append, h1, h2], by simp⟩
  · exact ⟨h1, by simp [List.all_append, h2, headingOK, hc]⟩
  · exact ⟨h1, by simp [List.all_append, h2, headingOK, Bool.eq_false_iff.mpr hc]⟩
  · exact ⟨h1, h2⟩

/-- Every TXT parse is heading-sound. -/
theorem txtChapters_ok (text : String) :
    (txtChapters text).all (fun ch => ch.paragraphs.all headingOK) = true := by
  have hinit : stateOK txtInit.chapters txtInit.current := by
    constructor <;> simp [txtInit]
  have hfold := foldl_preserve (fun st : TxtState => stateOK st.chapters st.current)
    txtStep (fun s a hs => txtStep_ok s a hs) (txtLines text) txtInit hinit
  obtain ⟨h1, h2⟩ := hfold
  unfold txtChapters
  dsimp only
  split_ifs
  · simp [List.all_append, h1, h2]
  · exact h1

/-- The PDF candidate step preserves heading soundness. -/
theorem pdfPara_ok (st : PdfState) (cand : String)
    (h : stateOK st.chapters st.current) :
    stateOK (pdfPara st cand).chapters (pdfPara st cand).current := by
  obtain ⟨h1, h2⟩ := h
  simp only [stateOK, pdfPara]
  split_ifs with ha hb hc
  · exact ⟨by simp [List.all_append, h1, h2], by simp⟩
  · exact ⟨h1, by simp [List.all_append, h2, headingOK, hc]⟩
  · exact ⟨h1, by simp [List.all_append, h2, headingOK, Bool.eq_false_iff.mpr hc]⟩
  · exact ⟨h1, h2⟩

/-- The every-10-pages break preserves heading soundness. -/
theorem pdfBreakCheck_ok (i : Nat) (st : PdfState)
    (h : stateOK st.chapters st.current) :
    stateOK (pdfBreakCheck i st).chapters (pdfBreakCheck i st).current := by
  obtain ⟨h1, h2⟩ := h
  simp only [stateOK, pdfBreakCheck]
  split_ifs
  · exact ⟨by simp [List.all_append, h1, h2], by simp⟩
  · exact ⟨h1, h2⟩

/-- The PDF page step preserves heading soundness. -/
theorem pdfProcessPage_ok (i : Nat) (page : PdfPage) (st : PdfState)
    (h : stateOK st.chapters st.current) :
    stateOK (pdfProcessPage i page st).chapters (pdfProcessPage i page st).current := by
  obtain ⟨h1, h2⟩ := h
  simp only [stateOK, pdfProcessPage]
  split_ifs with ha hb
  · exact ⟨h1, by simp [stateOK, List.all_append, h2, headingOK_image]⟩
  · exact ⟨h1, h2⟩
  · exact pdfBreakCheck_ok i _
      (foldl_preserve (fun st : PdfState => stateOK st.chapters st.current)
        pdfPara (fun s a hs => pdfPara_ok s a hs) _ _ ⟨h1, h2⟩)

/-- The page fold preserves heading soundness. -/
theorem pdfPagesFold_ok : ∀ (l : List (Nat × PdfPage)) (st : PdfState),
    stateOK st.chapters st.current →
    stateOK (l.foldl (fun st ip => pdfProcessPage (ip.1 + 1) ip.2 st) st).chapters
            (l.foldl (fun st ip => pdfProcessPage (ip.1 + 1) ip.2 st) st).current := by
  intro l
  induction l with
  | nil => intro st h; exact h
  | cons a as ih =>
    intro st h
    exact ih _ (pdfProcessPage_ok (a.1 + 1) a.2 st h)

/-- Every PDF parse is heading-sound. -/
theorem pdfChapters_ok (pages : List PdfPage) :
    (pdfChapters pages).all (fun ch => ch.paragraphs.all headingOK) = true := by
  have hfold : stateOK (pdfFold pages).chapters (pdfFold pages).current := by
    unfold pdfFold
    exact pdfPagesFold_ok pages.enum pdfInit (by constructor <;> simp [pdfInit])
  obtain ⟨h1, h2⟩ := hfold
  unfold pdfChapters
  dsimp only
  split_ifs <;> simp [List.all_append, h1, h2]

/-- Any paragraph emitted by `processImage` is heading-sound. -/
theorem processImage_all_ok (zip : List String) (bp : String) (img : XNode) (pid : Nat) :
    (processImage zip bp img pid).1.all headingOK = true := by
  unfold processImage
  repeat' split
  all_goals simp [headingOK]

/-- The image pass emits only heading-sound paragraphs. -/
theorem processImagesAux_ok (zip : List String) (bp : String) :
    ∀ (imgs : List XNode) (acc : List Paragraph × Nat),
    acc.1.all headingOK = true →
    (imgs.foldl
      (fun acc img =>
        match processImage zip bp img acc.2 with
        | (some p, pid2) => (acc.1 ++ [p], pid2)
        | (none, pid2) => (acc.1, pid2)) acc).1.all headingOK = true := by
  intro imgs
  induction imgs with
  | nil => intro acc h; exact h
  | cons img rest ih =>
    intro acc h
    cases hpi : processImage zip bp img acc.2 with
    | mk po pid2 =>
      cases po with
      | none => exact ih _ (by simp [hpi, h])
      | some p =>
        have hp := processImage_all_ok zip bp img acc.2
        rw [hpi] at hp
        simp only [Option.all_some] at hp
        exact ih _ (by simp [hpi, List.all_append, h, hp])

/-- All paragraphs of the whole-document image pass are heading-sound. -/
theorem processImages_ok (zip : List String) (bp : String) (doc : XNode) (pid : Nat) :
    (processImages zip bp doc pid).1.all headingOK = true := by
  unfold processImages
  exact processImagesAux_ok zip bp _ ([], pid) (by simp)

/-- Heading levels taken from an `h1`–`h6` tag lie between 1 and 6. -/
theorem hTagLevel_range (tag : String)
    (h : (tag = "h1" || tag = "h2" || tag = "h3" || tag = "h4" || tag = "h5" || tag = "h6")
      = true) :
    1 ≤ hTagLevel tag ∧ hTagLevel tag ≤ 6 := by
  have hd : tag = "h1" ∨ tag = "h2" ∨ tag = "h3" ∨ tag = "h4" ∨ tag = "h5" ∨ tag = "h6" := by
    simpa [or_assoc] using h
  rcases hd with h | h | h | h | h | h <;> subst h <;> simp [hTagLevel]

mutual
/-- The structural walk emits only heading-sound paragraphs. -/
theorem processElement_ok (t : String) (pid : Nat) (n : XNode) :
    (processElement t pid n).1.all headingOK = true := by
  cases n with
  | text s => simp [processElement]
  | elem tag attrs children =>
    simp only [processElement]
    split_ifs with h1 h2 h3 h4 h5 h6 h7 h8 h9 h10
    · simp
    · have hr := hTagLevel_range tag (by simpa using h2)
      simp [headingOK, decide_eq_true_eq, hr.1, hr.2]
    · simp
    · simp [headingOK]
    · simp
    · exact processChildren_ok t pid children
    · simp [headingOK, h9]
    · simp [headingOK, Bool.eq_false_iff.mpr h9]
    · simp
    · exact processChildren_ok t pid children
    · simp
/-- The walk over a child list emits only heading-sound paragraphs. -/
theorem processChildren_ok (t : String) (pid : Nat) (l : List XNode) :
    (processChildren t pid l).1.all headingOK = true := by
  cases l with
  | nil => simp [processChildren]
  | cons c cs =>
    cases c with
    | text s =>
      simp only [processChildren]
      exact processChildren_ok t pid cs
    | elem tg a kids =>
      simp only [processChildren]
      simp [List.all_append, processElement_ok t pid (.elem tg a kids),
        processChildren_ok t (processElement t pid (.elem tg a kids)).2 cs]
end

/-- One fallback step preserves heading soundness of the emitted list. -/
theorem epubFallbackStep_ok (st : FallbackState) (sentence : String)
    (h : st.paras.all headingOK = true) :
    (epubFallbackStep st sentence).paras.all headingOK = true := by
  simp only [epubFallbackStep]
  split_ifs <;> simp [List.all_append, h, headingOK]

/-- The fallback loop preserves heading soundness. -/
theorem epubFallbackFold_ok : ∀ (l : List String) (st : FallbackState),
    st.paras.all headingOK = true →
    (l.foldl epubFallbackStep st).paras.all headingOK = true := by
  intro l
  induction l with
  | nil => intro st h; exact h
  | cons x xs ih => intro st h; exact ih _ (epubFallbackStep_ok st x h)

/-- All fallback paragraphs are heading-sound. -/
theorem epubFallback_ok (txt : String) (pid : Nat) :
    (epubFallback txt pid).1.all headingOK = true := by
  simp only [epubFallback]
  have hfold := epubFallbackFold_ok (jsSentences txt)
    { paras := [], pid := pid, current := "" } (by simp)
  split_ifs
  · simp [List.all_append, hfold, headingOK]
  · exact hfold

/-- All paragraphs produced for one spine document are heading-sound. -/
theorem epubProcessDoc_ok (zip : List String) (bp : String) (doc : XNode) (pid : Nat)
    (t : String) (ps : List Paragraph) (d : String) (pid2 : Nat)
    (h : epubProcessDoc zip bp doc pid = (some (t, ps, d), pid2)) :
    ps.all headingOK = true := by
  simp only [epubProcessDoc] at h
  split_ifs at h with h1 h2
  · simp at h
  · simp only [Prod.mk.injEq, Option.some.injEq] at h
    obtain ⟨⟨ht, hps, hd⟩, hpid⟩ := h
    rw [← hps]
    exact epubFallback_ok _ _
  · simp only [Prod.mk.injEq, Option.some.injEq] at h
    obtain ⟨⟨ht, hps, hd⟩, hpid⟩ := h
    rw [← hps]
    simp [List.all_append, processImages_ok, processChildren_ok]

/-- One spine step preserves heading soundness of the chapter list. -/
theorem epubSpineStep_ok (inp : EpubInput) (opf : OpfData) (bp : String)
    (acc : EpubAcc) (idref : Option String)
    (h : acc.chapters.all (fun ch => ch.paragraphs.all headingOK) = true) :
    (epubSpineStep inp opf bp acc idref).chapters.all
      (fun ch => ch.paragraphs.all headingOK) = true := by
  cases idref with
  | none => simpa [epubSpineStep] using h
  | some idref =>
    simp only [epubSpineStep]
    split_ifs with h1
    · exact h
    · cases hm : manifestGet opf.manifest idref with
      | none => exact h
      | some href =>
        dsimp only
        cases hd : (inp.docs.find? (fun d => d.1 = bp ++ href)).map (fun d => d.2) with
        | none => exact h
        | some doc =>
          dsimp only
          cases hpd : epubProcessDoc inp.zipNames bp doc acc.pid with
          | mk res pid2 =>
            cases res with
            | none => exact h
            | some r =>
              obtain ⟨rt, rps, rd⟩ := r
              dsimp only
              have hok := epubProcessDoc_ok inp.zipNames bp doc acc.pid rt rps rd pid2 hpd
              split_ifs with h2 h3 <;> simp [List.all_append, h, hok]

/-- The spine fold keeps every chapter heading-sound. -/
theorem epubSpineFoldAux_ok (inp : EpubInput) (opf : OpfData) (bp : String) :
    ∀ (l : List (Option String)) (acc : EpubAcc),
    acc.chapters.all (fun ch => ch.paragraphs.all headingOK) = true →
    (l.foldl (epubSpineStep inp opf bp) acc).chapters.all
      (fun ch => ch.paragraphs.all headingOK) = true := by
  intro l
  induction l with
  | nil => intro acc h; exact h
  | cons x xs ih => intro acc h; exact ih _ (epubSpineStep_ok inp opf bp acc x h)

/-- Every EPUB spine walk is heading-sound. -/
theorem epubSpineFold_ok (inp : EpubInput) (opf : OpfData) (bp : String) :
    (epubSpineFold inp opf bp).chapters.all
      (fun ch => ch.paragraphs.all headingOK) = true := by
  unfold epubSpineFold
  exact epubSpineFoldAux_ok inp opf bp opf.spine _ (by simp)

/-- Claim C10 (confirmed): every paragraph produced by any of the three
extractors satisfies the heading-level invariant — a heading carries a
defined level between 1 and 6 (3 for TXT/PDF heuristic headings, the
tag's digit for EPUB `h1`–`h6`, 4 for EPUB leaf containers), and every
non-heading paragraph, image paragraphs included, carries no level. -/
theorem C10_heading_invariant :
    (∀ (f : MFile) (now : Nat), paragraphsOK (parseTxtFile f now) = true) ∧
    (∀ (f : MFile) (now : Nat), (parsePdfFile f now).toOption.all paragraphsOK = true) ∧
    (∀ (f : MFile) (now : Nat), (parseEpubFile f now).toOption.all paragraphsOK = true) := by
  refine ⟨?_, ?_, ?_⟩
  · intro f now
    exact txtChapters_ok f.text
  · intro f now
    cases hp : f.pdf with
    | none => simp [parsePdfFile, hp, Except.toOption]
    | some pages =>
      simp only [parsePdfFile, hp, Except.toOption, Option.all]
      exact pdfChapters_ok pages
  · intro f now
    cases he : f.epub with
    | none => simp [parseEpubFile, he, Except.toOption]
    | some inp =>
      simp only [parseEpubFile, he]
      cases hc : inp.containerPresent
      · simp [Except.toOption]
      · simp only [Bool.not_true, Bool.false_eq_true, if_false]
        cases hr : inp.rootfilePath with
        | none => simp [Except.toOption]
        | some rp =>
          cases ho : inp.opf with
          | none => simp [Except.toOption]
          | some opf =>
            by_cases hz : (epubSpineFold inp opf (basePathOf rp)).chapters.length = 0
            · simp [hz, Except.toOption]
            · simp only [hz, if_neg, Except.toOption, Option.all]
              exact epubSpineFold_ok inp opf (basePathOf rp)

/-! # Claim C8 (amended): machinery -/

/-- The id sequence extended by its next element. -/
theorem pidSeq_snoc : ∀ (s n : Nat), pidSeq s n ++ [pidName (s + n)] = pidSeq s (n + 1) := by
  intro s n
  induction n generalizing s with
  | zero => simp [pidSeq, List.range']
  | succ k ih =>
    have h1 : pidSeq s (k + 1) = pidName s :: pidSeq (s + 1) k := by
      simp [pidSeq, List.range']
    have h2 : pidSeq s (k + 2) = pidName s :: pidSeq (s + 1) (k + 1) := by
      simp [pidSeq, List.range']
    rw [h1, h2, List.cons_append, show s + (k + 1) = (s + 1) + k by omega, ih (s + 1)]

/-- Length of an id sequence. -/
theorem pidSeq_length (s n : Nat) : (pidSeq s n).length = n := by simp [pidSeq]

/-- Appending one paragraph with the next id extends the state
specification. -/
theorem stateIds_push (chs : List Chapter) (cur : Chapter) (p : Paragraph) (pid : Nat)
    (h : stateIds chs cur pid) (hp : p.id = pidName pid) :
    stateIds chs { cur with paragraphs := cur.paragraphs ++ [p] } (pid + 1) := by
  unfold stateIds at h ⊢
  simp only [List.map_append, List.map_cons, List.map_nil, ← List.append_assoc] at h ⊢
  rw [h, hp]
  simpa using pidSeq_snoc 0 pid

/-- Moving the running chapter into the finished list and starting an
empty chapter preserves the state specification. -/
theorem stateIds_newchapter (chs : List Chapter) (cur cur2 : Chapter) (pid : Nat)
    (h : stateIds chs cur pid) (h2 : cur2.paragraphs = []) :
    stateIds (chs ++ [cur]) cur2 pid := by
  unfold stateIds at h ⊢
  simpa [h2] using h

/-- The TXT line step preserves the id specification. -/
theorem txtStep_ids (st : TxtState) (l : String)
    (h : stateIds st.chapters st.current st.pid) :
    stateIds (txtStep st l).chapters (txtStep st l).current (txtStep st l).pid := by
  simp only [txtStep]
  split_ifs with ha hb hd
  · exact stateIds_newchapter _ _ _ _ h rfl
  · exact stateIds_push _ _ _ _ h rfl
  · exact stateIds_push _ _ _ _ h rfl
  · exact h

/-- The TXT loop preserves the id specification. -/
theorem txtFold_ids : ∀ (l : List String) (st : TxtState),
    stateIds st.chapters st.current st.pid →
    stateIds (l.foldl txtStep st).chapters (l.foldl txtStep st).current
      (l.foldl txtStep st).pid := by
  intro l
  induction l with
  | nil => intro st h; exact h
  | cons x xs ih => intro st h; exact ih _ (txtStep_ids st x h)

/-- Every TXT parse numbers its paragraphs `p0, p1, …` globally across
chapters. -/
theorem txtChapters_ids (text : String) :
    bookParaIds (txtChapters text) =
      pidSeq 0 (bookParaIds (txtChapters text)).length := by
  have hfold := txtFold_ids (txtLines text) txtInit (by simp [stateIds, txtInit, pidSeq])
  set st := (txtLines text).foldl txtStep txtInit with hst
  unfold stateIds at hfold
  have hmain : bookParaIds (txtChapters text) = pidSeq 0 st.pid := by
    unfold txtChapters
    rw [← hst]
    dsimp only
    split_ifs with hc
    · unfold bookParaIds
      simpa using hfold
    · unfold bookParaIds
      have hemp : st.current.paragraphs = [] := List.length_eq_zero.mp (by omega)
      rw [hemp] at hfold
      simpa using hfold
  rw [hmain, pidSeq_length]

/-- The PDF candidate step preserves the id specification. -/
theorem pdfPara_ids (st : PdfState) (cand : String)
    (h : stateIds st.chapters st.current st.pid) :
    stateIds (pdfPara st cand).chapters (pdfPara st cand).current (pdfPara st cand).pid := by
  simp only [pdfPara]
  split_ifs with ha hb hd
  · exact stateIds_newchapter _ _ _ _ h rfl
  · exact stateIds_push _ _ _ _ h rfl
  · exact stateIds_push _ _ _ _ h rfl
  · exact h

/-- The every-10-pages break preserves the id specification. -/
theorem pdfBreakCheck_ids (i : Nat) (st : PdfState)
    (h : stateIds st.chapters st.current st.pid) :
    stateIds (pdfBreakCheck i st).chapters (pdfBreakCheck i st).current
      (pdfBreakCheck i st).pid := by
  simp only [pdfBreakCheck]
  split_ifs
  · exact stateIds_newchapter _ _ _ _ h rfl
  · exact h

/-- The candidate loop preserves the id specification. -/
theorem pdfParasFold_ids : ∀ (l : List String) (st : PdfState),
    stateIds st.chapters st.current st.pid →
    stateIds (l.foldl pdfPara st).chapters (l.foldl pdfPara st).current
      (l.foldl pdfPara st).pid := by
  intro l
  induction l with
  | nil => intro st h; exact h
  | cons x xs ih => intro st h; exact ih _ (pdfPara_ids st x h)

/-- The PDF page step preserves the id specification. -/
theorem pdfProcessPage_ids (i : Nat) (page : PdfPage) (st : PdfState)
    (h : stateIds st.chapters st.current st.pid) :
    stateIds (pdfProcessPage i page st).chapters (pdfProcessPage i page st).current
      (pdfProcessPage i page st).pid := by
  simp only [pdfProcessPage]
  split_ifs with ha hb
  · exact stateIds_push _ _ _ _ h rfl
  · exact h
  · exact pdfBreakCheck_ids i _ (pdfParasFold_ids _ _ h)

/-- The page loop preserves the id specification. -/
theorem pdfPagesFold_ids : ∀ (l : List (Nat × PdfPage)) (st : PdfState),
    stateIds st.chapters st.current st.pid →
    stateIds (l.foldl (fun st ip => pdfProcessPage (ip.1 + 1) ip.2 st) st).chapters
      (l.foldl (fun st ip => pdfProcessPage (ip.1 + 1) ip.2 st) st).current
      (l.foldl (fun st ip => pdfProcessPage (ip.1 + 1) ip.2 st) st).pid := by
  intro l
  induction l with
  | nil => intro st h; exact h
  | cons a as ih => intro st h; exact ih _ (pdfProcessPage_ids (a.1 + 1) a.2 st h)

/-- Every PDF parse numbers its paragraphs `p0, p1, …` globally across
chapters. -/
theorem pdfChapters_ids (pages : List PdfPage) :
    bookParaIds (pdfChapters pages) =
      pidSeq 0 (bookParaIds (pdfChapters pages)).length := by
  have hfold : stateIds (pdfFold pages).chapters (pdfFold pages).current (pdfFold pages).pid := by
    unfold pdfFold
    exact pdfPagesFold_ids pages.enum pdfInit (by simp [stateIds, pdfInit, pidSeq])
  set st := pdfFold pages with hst
  unfold stateIds at hfold
  have hmain : bookParaIds (pdfChapters pages) = pidSeq 0 st.pid := by
    unfold pdfChapters
    rw [← hst]
    dsimp only
    split_ifs with hc hd he
    · simp at hd
    · unfold bookParaIds
      simpa using hfold
    · unfold bookParaIds
      have hemp : st.current.paragraphs = [] := List.length_eq_zero.mp (by omega)
      have hnil : st.chapters = [] := List.length_eq_zero.mp he
      rw [hemp, hnil] at hfold
      simp at hfold
      simp [hnil, hemp, hfold]
    · unfold bookParaIds
      have hemp : st.current.paragraphs = [] := List.length_eq_zero.mp (by omega)
      rw [hemp] at hfold
      simpa using hfold
  rw [hmain, pidSeq_length]

/-- Concatenation of adjacent id sequences. -/
theorem pidSeq_append : ∀ (m s n : Nat), pidSeq s m ++ pidSeq (s + m) n = pidSeq s (m + n) := by
  intro m
  induction m with
  | zero => intro s n; simp [pidSeq, List.range']
  | succ k ih =>
    intro s n
    have h1 : pidSeq s (k + 1) = pidName s :: pidSeq (s + 1) k := by
      simp [pidSeq, List.range']
    have h2 : pidSeq s (k + 1 + n) = pidName s :: pidSeq (s + 1) (k + n) := by
      rw [show k + 1 + n = (k + n) + 1 by omega]
      simp [pidSeq, List.range']
    rw [h1, h2, List.cons_append, show s + (k + 1) = (s + 1) + k by omega, ih (s + 1) n]

/-- The empty chunk. -/
theorem idChunk_nil (pid : Nat) : idChunk pid ([], pid) := by
  simp [idChunk, pidSeq, List.range']

/-- A singleton chunk with the next id. -/
theorem idChunk_single (pid : Nat) (p : Paragraph) (hp : p.id = pidName pid) :
    idChunk pid ([p], pid + 1) := by
  simp [idChunk, pidSeq, List.range', hp]

/-- Chunks compose by concatenation. -/
theorem idChunk_append {pid pid1 pid2 : Nat} {ps qs : List Paragraph}
    (h1 : idChunk pid (ps, pid1)) (h2 : idChunk pid1 (qs, pid2)) :
    idChunk pid (ps ++ qs, pid2) := by
  unfold idChunk at h1 h2 ⊢
  dsimp only at h1 h2 ⊢
  obtain ⟨ha1, hb1⟩ := h1
  obtain ⟨ha2, hb2⟩ := h2
  constructor
  · simp only [List.length_append]
    omega
  · simp only [List.map_append, List.length_append]
    rw [hb1, hb2, ha1]
    exact pidSeq_append ps.length pid qs.length

/-- `processImage` emits a chunk continuing the counter. -/
theorem processImage_ids (zip : List String) (bp : String) (img : XNode) (pid : Nat) :
    idChunk pid ((processImage zip bp img pid).1.toList, (processImage zip bp img pid).2) := by
  unfold processImage
  repeat' split
  all_goals simp [idChunk, pidSeq, List.range', pidName]

/-- One image step preserves the chunk specification. -/
theorem processImagesStep_ids (zip : List String) (bp : String) (img : XNode)
    (acc : List Paragraph × Nat) (pid0 : Nat) (h : idChunk pid0 acc) :
    idChunk pid0
      (match processImage zip bp img acc.2 with
       | (some p, pid2) => (acc.1 ++ [p], pid2)
       | (none, pid2) => (acc.1, pid2)) := by
  have hi := processImage_ids zip bp img acc.2
  cases hpi : processImage zip bp img acc.2 with
  | mk po pid2 =>
    rw [hpi] at hi
    cases po with
    | none =>
      have h2 : pid2 = acc.2 := by simpa [idChunk] using hi.1
      subst h2
      exact h
    | some p =>
      exact idChunk_append h (by simpa using hi)

/-- The image fold preserves the chunk specification. -/
theorem processImagesFold_ids (zip : List String) (bp : String) :
    ∀ (imgs : List XNode) (acc : List Paragraph × Nat) (pid0 : Nat),
    idChunk pid0 acc →
    idChunk pid0 (imgs.foldl
      (fun acc img =>
        match processImage zip bp img acc.2 with
        | (some p, pid2) => (acc.1 ++ [p], pid2)
        | (none, pid2) => (acc.1, pid2)) acc) := by
  intro imgs
  induction imgs with
  | nil => intro acc pid0 h; exact h
  | cons img rest ih =>
    intro acc pid0 h
    exact ih _ pid0 (processImagesStep_ids zip bp img acc pid0 h)

/-- The whole-document image pass emits a chunk. -/
theorem processImages_ids (zip : List String) (bp : String) (doc : XNode) (pid : Nat) :
    idChunk pid (processImages zip bp doc pid) := by
  unfold processImages
  exact processImagesFold_ids zip bp _ ([], pid) pid (idChunk_nil pid)

mutual
/-- The structural walk emits a chunk continuing the counter. -/
theorem processElement_ids (t : String) (pid : Nat) (n : XNode) :
    idChunk pid (processElement t pid n) := by
  cases n with
  | text s => simpa [processElement] using idChunk_nil pid
  | elem tag attrs children =>
    simp only [processElement]
    split_ifs with h1 h2 h3 h4 h5 h6 h7 h8 h9 h10
    · exact idChunk_nil pid
    · exact idChunk_single pid _ rfl
    · exact idChunk_nil pid
    · exact idChunk_single pid _ rfl
    · exact idChunk_nil pid
    · exact processChildren_ids t pid children
    · exact idChunk_single pid _ rfl
    · exact idChunk_single pid _ rfl
    · exact idChunk_nil pid
    · exact processChildren_ids t pid children
    · exact idChunk_nil pid
/-- The walk over a child list emits a chunk continuing the counter. -/
theorem processChildren_ids (t : String) (pid : Nat) (l : List XNode) :
    idChunk pid (processChildren t pid l) := by
  cases l with
  | nil => simpa [processChildren] using idChunk_nil pid
  | cons c cs =>
    cases c with
    | text s =>
      simp only [processChildren]
      exact processChildren_ids t pid cs
    | elem tg a kids =>
      simp only [processChildren]
      exact idChunk_append (processElement_ids t pid (.elem tg a kids))
        (processChildren_ids t (processElement t pid (.elem tg a kids)).2 cs)
end

/-- One fallback step preserves the chunk specification of the emitted
paragraphs. -/
theorem epubFallbackStep_ids (st : FallbackState) (sentence : String) (pid0 : Nat)
    (h : idChunk pid0 (st.paras, st.pid)) :
    idChunk pid0 ((epubFallbackStep st sentence).paras, (epubFallbackStep st sentence).pid) := by
  simp only [epubFallbackStep]
  split_ifs
  · exact idChunk_append h (idChunk_single st.pid _ rfl)
  · exact h
  · exact h

/-- The fallback loop preserves the chunk specification. -/
theorem epubFallbackFold_ids : ∀ (l : List String) (st : FallbackState) (pid0 : Nat),
    idChunk pid0 (st.paras, st.pid) →
    idChunk pid0 ((l.foldl epubFallbackStep st).paras, (l.foldl epubFallbackStep st).pid) := by
  intro l
  induction l with
  | nil => intro st pid0 h; exact h
  | cons x xs ih => intro st pid0 h; exact ih _ pid0 (epubFallbackStep_ids st x pid0 h)

/-- The fallback emits a chunk continuing the counter. -/
theorem epubFallback_ids (txt : String) (pid : Nat) :
    idChunk pid (epubFallback txt pid) := by
  simp only [epubFallback]
  have hfold := epubFallbackFold_ids (jsSentences txt)
    { paras := [], pid := pid, current := "" } pid (idChunk_nil pid)
  split_ifs
  · exact idChunk_append hfold (idChunk_single _ _ rfl)
  · exact hfold

/-- Paragraph ids of a chapter list extended by one chapter. -/
theorem bookParaIds_snoc (chs : List Chapter) (ch : Chapter) :
    bookParaIds (chs ++ [ch]) = bookParaIds chs ++ ch.paragraphs.map Paragraph.id := by
  simp [bookParaIds]

set_option maxHeartbeats 1600000 in
/-- One spine document emits a chunk continuing the counter (the empty
chunk when the item is skipped). -/
theorem epubProcessDoc_ids (zip : List String) (bp : String) (doc : XNode) (pid : Nat) :
    idChunk pid
      ((match (epubProcessDoc zip bp doc pid).1 with
        | none => []
        | some r => r.2.1), (epubProcessDoc zip bp doc pid).2) := by
  have hi := processImages_ids zip bp (extractChapterTitle doc).2 pid
  have hw := processChildren_ids (extractChapterTitle doc).1
    (processImages zip bp (extractChapterTitle doc).2 pid).2
    (bodyElementOf (extractChapterTitle doc).2).childNodes
  simp only [epubProcessDoc]
  split_ifs with h1 h2
  · have hpi : (processImages zip bp (extractChapterTitle doc).2 pid).1 = [] := by
      have := List.isEmpty_iff.mp h1
      exact List.append_eq_nil.mp this |>.1
    have hpw : (processChildren (extractChapterTitle doc).1
        (processImages zip bp (extractChapterTitle doc).2 pid).2
        (bodyElementOf (extractChapterTitle doc).2).childNodes).1 = [] := by
      have := List.isEmpty_iff.mp h1
      exact List.append_eq_nil.mp this |>.2
    have hpid1 : (processImages zip bp (extractChapterTitle doc).2 pid).2 = pid := by
      have := hi.1
      rw [hpi] at this
      simpa using this
    have hpid2 : (processChildren (extractChapterTitle doc).1
        (processImages zip bp (extractChapterTitle doc).2 pid).2
        (bodyElementOf (extractChapterTitle doc).2).childNodes).2 =
        (processImages zip bp (extractChapterTitle doc).2 pid).2 := by
      have := hw.1
      rw [hpw] at this
      simpa using this
    rw [hpid2, hpid1]
    exact idChunk_nil pid
  · have hpi : (processImages zip bp (extractChapterTitle doc).2 pid).1 = [] := by
      have := List.isEmpty_iff.mp h1
      exact List.append_eq_nil.mp this |>.1
    have hpw : (processChildren (extractChapterTitle doc).1
        (processImages zip bp (extractChapterTitle doc).2 pid).2
        (bodyElementOf (extractChapterTitle doc).2).childNodes).1 = [] := by
      have := List.isEmpty_iff.mp h1
      exact List.append_eq_nil.mp this |>.2
    have hpid1 : (processImages zip bp (extractChapterTitle doc).2 pid).2 = pid := by
      have := hi.1
      rw [hpi] at this
      simpa using this
    have hpid2 : (processChildren (extractChapterTitle doc).1
        (processImages zip bp (extractChapterTitle doc).2 pid).2
        (bodyElementOf (extractChapterTitle doc).2).childNodes).2 =
        (processImages zip bp (extractChapterTitle doc).2 pid).2 := by
      have := hw.1
      rw [hpw] at this
      simpa using this
    rw [hpid2, hpid1]
    exact epubFallback_ids (htmlToText doc) pid
  · exact idChunk_append hi hw

/-- One spine step preserves the book-level id specification. -/
theorem epubSpineStep_ids (inp : EpubInput) (opf : OpfData) (bp : String)
    (acc : EpubAcc) (idref : Option String)
    (h : bookParaIds acc.chapters = pidSeq 0 acc.pid) :
    bookParaIds (epubSpineStep inp opf bp acc idref).chapters =
      pidSeq 0 (epubSpineStep inp opf bp acc idref).pid := by
  cases idref with
  | none => simpa [epubSpineStep] using h
  | some idref =>
    simp only [epubSpineStep]
    split_ifs with h1
    · exact h
    · cases hm : manifestGet opf.manifest idref with
      | none => exact h
      | some href =>
        dsimp only
        cases hd : (inp.docs.find? (fun d => d.1 = bp ++ href)).map (fun d => d.2) with
        | none => exact h
        | some doc =>
          dsimp only
          have hids := epubProcessDoc_ids inp.zipNames bp doc acc.pid
          cases hpd : epubProcessDoc inp.zipNames bp doc acc.pid with
          | mk res pid2 =>
            rw [hpd] at hids
            cases res with
            | none =>
              simp only [idChunk] at hids
              have hp2 : pid2 = acc.pid := by
                have := hids.1
                simpa using this
              subst hp2
              exact h
            | some r =>
              obtain ⟨rt, rps, rd⟩ := r
              dsimp only
              simp only [idChunk] at hids
              split_ifs with h2 h3
              · rw [bookParaIds_snoc]
                dsimp only
                rw [h, hids.2, hids.1]
                simpa using pidSeq_append acc.pid 0 rps.length
              · rw [bookParaIds_snoc]
                dsimp only
                rw [h, hids.2, hids.1]
                simpa using pidSeq_append acc.pid 0 rps.length
              · have hids1 := hids.1
                have hpid : pid2 = acc.pid := by omega
                rw [hpid]
                exact h

/-- The spine fold keeps the book-level id specification. -/
theorem epubSpineFoldAux_ids (inp : EpubInput) (opf : OpfData) (bp : String) :
    ∀ (l : List (Option String)) (acc : EpubAcc),
    bookParaIds acc.chapters = pidSeq 0 acc.pid →
    bookParaIds (l.foldl (epubSpineStep inp opf bp) acc).chapters =
      pidSeq 0 (l.foldl (epubSpineStep inp opf bp) acc).pid := by
  intro l
  induction l with
  | nil => intro acc h; exact h
  | cons x xs ih => intro acc h; exact ih _ (epubSpineStep_ids inp opf bp acc x h)

/-- Every EPUB spine walk numbers its paragraphs `p0, p1, …` globally
across chapters. -/
theorem epubSpineFold_ids (inp : EpubInput) (opf : OpfData) (bp : String) :
    bookParaIds (epubSpineFold inp opf bp).chapters =
      pidSeq 0 (bookParaIds (epubSpineFold inp opf bp).chapters).length := by
  have hmain : bookParaIds (epubSpineFold inp opf bp).chapters =
      pidSeq 0 (epubSpineFold inp opf bp).pid := by
    unfold epubSpineFold
    exact epubSpineFoldAux_ids inp opf bp opf.spine _ (by simp [bookParaIds, pidSeq])
  rw [hmain, pidSeq_length]

/-- Claim C8 (amended): the paragraph-ID counter is global per book for
all three extractors — in every TXT, PDF and EPUB parse the paragraph
ids read `p0, p1, p2, …` in reading order across chapter boundaries
without restarting (so the first paragraph of a later chapter continues
the sequence instead of restarting at `p0`). -/
theorem C8_amended :
    (∀ text, bookParaIds (txtChapters text) =
      pidSeq 0 (bookParaIds (txtChapters text)).length) ∧
    (∀ pages, bookParaIds (pdfChapters pages) =
      pidSeq 0 (bookParaIds (pdfChapters pages)).length) ∧
    (∀ (inp : EpubInput) (opf : OpfData) (bp : String),
      bookParaIds (epubSpineFold inp opf bp).chapters =
        pidSeq 0 (bookParaIds (epubSpineFold inp opf bp).chapters).length) :=
  ⟨txtChapters_ids, pdfChapters_ids, epubSpineFold_ids⟩
